import Mathlib

set_option maxRecDepth 4000

/-!
Verification development for the ClickUp template-deployment engine
(`src/lib/clickup-api.ts`, `src/lib/template-manager.ts`).

The remote ClickUp REST service is modelled by an explicit environment
(`Env`): directory listings, live custom fields and the outcome of each
task / checklist / delete call are oracles, and every remote call made by
the orchestrator is recorded in an explicit state (`St`).  The deployment
orchestrator `deployTemplateSmartly`, its helpers (`rollback`,
`validateCustomFields`, `formatCustomFields`, the name resolvers) and the
pre-deploy validator `TemplateManager.validateTemplate` are translated
from the TypeScript source; JavaScript in-place mutation of the template
document is modelled by threading the template value and returning the
final document to the caller.  Console logging, watcher attachment
(wrapped in its own try/catch in the source, observable only in logs and
warnings), assignee resolution, tag/priority/date payload details and the
internals of `createNewList` (abstracted by the oracle `newListId`) have
no bearing on the verified claims and are not modelled.
-/

namespace CU

/-- A named remote entity (space, folder or list) as returned by the
directory-listing endpoints. -/
structure Entity where
  id : String
  name : String
deriving Repr, DecidableEq

/-- A live custom field on the destination list (`GET /list/{id}/field`). -/
structure FieldDef where
  id : String
  name : String
deriving Repr, DecidableEq

/-- `checklist` block of an action (`{title?, items}`). -/
structure ChecklistSpec where
  title : Option String
  items : List String
deriving Repr, DecidableEq

/-- `Action` of the template schema.  Custom-field records are modelled as
association lists of (name, value) pairs; the recursive `actions` field
carries the nested sub-actions. -/
inductive ActionT where
| mk (name : String) (description : Option String)
    (custom_fields : List (String × String))
    (checklist : Option ChecklistSpec)
    (actions : List ActionT)
deriving Repr

/-- The `name` field of an action. -/
def ActionT.name : ActionT → String
| .mk n _ _ _ _ => n

/-- The `description` field of an action. -/
def ActionT.description : ActionT → Option String
| .mk _ d _ _ _ => d

/-- The `custom_fields` record of an action. -/
def ActionT.custom_fields : ActionT → List (String × String)
| .mk _ _ cf _ _ => cf

/-- The `checklist` block of an action. -/
def ActionT.checklist : ActionT → Option ChecklistSpec
| .mk _ _ _ cl _ => cl

/-- The nested sub-actions of an action. -/
def ActionT.actions : ActionT → List ActionT
| .mk _ _ _ _ as => as

/-- `Phase` of the template schema. -/
structure Phase where
  key : String
  name : String
  description : Option String
  custom_fields : List (String × String)
  actions : List ActionT
deriving Repr

/-- `meta` block of a template. -/
structure Meta where
  slug : String
  version : String
deriving Repr, DecidableEq

/-- `destination` block of a template; `none` models an absent field. -/
structure Destination where
  space_id : Option String
  space_name : Option String
  folder_id : Option String
  folder_name : Option String
  list_id : Option String
  list_name : Option String
deriving Repr, DecidableEq

/-- `defaults` block of a template (only the custom-field record is
relevant to the verified claims). -/
structure Defaults where
  custom_fields : List (String × String)
deriving Repr, DecidableEq

/-- The template root document (`TemplateSchema`). -/
structure TemplateSchema where
  meta : Meta
  destination : Destination
  defaults : Option Defaults
  phases : List Phase
deriving Repr

/-- Deployment mode of the result. -/
inductive Mode where
| existing_list
| new_list
deriving Repr, DecidableEq

/-- A created remote task as far as the orchestrator observes it: the id
assigned by the service plus the payload it echoed back. -/
structure RemoteTask where
  id : String
  name : String
  parent : Option String
deriving Repr, DecidableEq

/-- `DeploymentResult` accumulated by the orchestrator. -/
structure DeploymentResult where
  success : Bool
  mode : Mode
  listId : String
  phases : List RemoteTask
  actions : List RemoteTask
  checklists : List String
  errors : List String
  warnings : List String
  message : String
  missingFields : List String
  fieldMapping : List (String × String)
deriving Repr, DecidableEq

/-- Outcome of one remote creation call, as dictated by the environment:
either the id of the created object, or a failure that is an HTTP 429
(`is429`) or some other error with the given message. -/
inductive CreateOutcome where
| ok (id : String)
| err (is429 : Bool) (msg : String)
deriving Repr, DecidableEq

/-- An error travelling through the catch blocks: whether the response
status was 429, and the raw `error.message`. -/
structure Err where
  is429 : Bool
  msg : String
deriving Repr, DecidableEq

/-- `errorMessage` computed in every catch block of the deploy loop:
a 429 is replaced by the fixed rate-limit text, otherwise the raw
message is used. -/
def Err.display (e : Err) : String :=
  if e.is429 then "Rate limit exceeded - too many requests" else e.msg

/-- The remote service, modelled as oracles: the current user (or the
connection error), the directory listings backing the name resolvers, the
live fields of each list, the id of a freshly created list, and the
outcome of the n-th task-creation, checklist-creation and task-deletion
call of the run. -/
structure Env where
  user : Except String String
  teams : List String
  spaces : List Entity
  foldersOf : String → List Entity
  spaceListsOf : String → List Entity
  folderListsOf : String → List Entity
  fieldsOf : String → List FieldDef
  newListId : Option String
  createOutcomes : Nat → CreateOutcome
  checklistOutcomes : Nat → CreateOutcome
  deleteOk : Nat → Bool

/-- The `options` argument of `deployTemplateSmartly`. -/
structure Options where
  stopOnMissingFields : Bool
  createNewListIfNeeded : Bool
  enableRollback : Bool
deriving Repr, DecidableEq

-- ==========================================
-- Name resolvers (resolveSpaceId / resolveFolderId / resolveListId)
-- ==========================================

/-- JavaScript `toLowerCase()`, modelled character-wise over the string's
character data (same semantics as `String.toLower`, but structurally
recursive so that concrete runs evaluate). -/
def strLower (s : String) : String := ⟨s.data.map Char.toLower⟩

/-- JavaScript `trim()`: strip whitespace from both ends, modelled
character-wise. -/
def strTrim (s : String) : String :=
  ⟨((s.data.dropWhile Char.isWhitespace).reverse.dropWhile
      Char.isWhitespace).reverse⟩

/-- The case-insensitive name match used by all three resolvers
(`x.name.toLowerCase() === wanted.toLowerCase()`). -/
def ciMatch (wanted : String) (e : Entity) : Bool :=
  strLower e.name == strLower wanted

/-- JavaScript `Array.prototype.join(', ')`. -/
def joinStrs : List String → String
| [] => ""
| [x] => x
| x :: y :: rest => x ++ ", " ++ joinStrs (y :: rest)

/-- `spaces.map(s => s.name).join(', ')` and friends. -/
def joinNames (l : List Entity) : String :=
  joinStrs (l.map (·.name))

/-- `needle` occurs contiguously inside `hay`. -/
def containsStr (hay needle : String) : Prop :=
  ∃ l r, hay = l ++ (needle ++ r)

/-- `resolveSpaceId`: first case-insensitive match wins; otherwise the
not-found error (listing all sibling space names) is thrown and re-wrapped
by the function's own catch block. -/
def resolveSpaceId (spaces : List Entity) (spaceName : String) :
    Except String String :=
  match spaces.find? (ciMatch spaceName) with
  | some s => .ok s.id
  | none =>
      .error ("Failed to find space \"" ++ spaceName ++ "\": " ++
        ("Space \"" ++ spaceName ++ "\" not found. Available spaces: " ++
          joinNames spaces))

/-- `resolveFolderId`, analogous to `resolveSpaceId`. -/
def resolveFolderId (folders : List Entity) (folderName : String) :
    Except String String :=
  match folders.find? (ciMatch folderName) with
  | some f => .ok f.id
  | none =>
      .error ("Failed to find folder \"" ++ folderName ++ "\": " ++
        ("Folder \"" ++ folderName ++ "\" not found in space. Available folders: " ++
          joinNames folders))

/-- `resolveListId`; `parentType` is the literal "space" or "folder" used
in the not-found message. -/
def resolveListId (lists : List Entity) (parentType : String)
    (listName : String) : Except String String :=
  match lists.find? (ciMatch listName) with
  | some l => .ok l.id
  | none =>
      .error ("Failed to find list \"" ++ listName ++ "\": " ++
        ("List \"" ++ listName ++ "\" not found in " ++ parentType ++
          ". Available lists: " ++ joinNames lists))

-- ==========================================
-- Custom-field validation and formatting
-- ==========================================

/-- Lookup in a JavaScript object built by successive assignments:
the last assignment to a key wins. -/
def lastAssoc (l : List (String × String)) (k : String) : Option String :=
  (l.reverse.find? (fun p => p.1 == k)).map (·.2)

/-- First-match association lookup (a JS object read on a map whose keys
are unique, such as `foundFieldMap` over the deduplicated name set). -/
def assocFind (l : List (String × String)) (k : String) : Option String :=
  (l.find? (fun p => p.1 == k)).map (·.2)

/-- The `fieldMap` object of `validateCustomFields`: live field name → id. -/
def exactLookup (fields : List FieldDef) (name : String) : Option String :=
  lastAssoc (fields.map (fun f => (f.name, f.id))) name

/-- The `fieldMapLower` object: lower-cased/trimmed live field name → id,
probed with the lower-cased/trimmed template name. -/
def ciLookup (fields : List FieldDef) (name : String) : Option String :=
  lastAssoc (fields.map (fun f => (strTrim (strLower f.name), f.id)))
    (strTrim (strLower name))

/-- The two-tier match of `validateCustomFields`: exact name first, then
case-insensitive/trimmed. -/
def matchField (fields : List FieldDef) (name : String) : Option String :=
  match exactLookup fields name with
  | some i => some i
  | none => ciLookup fields name

/-- JavaScript `Set` insertion: append if not already present. -/
def addUnique (l : List String) (x : String) : List String :=
  if x ∈ l then l else l ++ [x]

/-- All custom-field names referenced in the template, in traversal order
(defaults, then per phase: its own fields, each action's fields, each
nested sub-action's fields), possibly with repetitions. -/
def collectFieldNames (tpl : TemplateSchema) : List String :=
  (match tpl.defaults with
   | some d => d.custom_fields.map (·.1)
   | none => []) ++
  tpl.phases.flatMap (fun ph =>
    ph.custom_fields.map (·.1) ++
    ph.actions.flatMap (fun a =>
      a.custom_fields.map (·.1) ++
      a.actions.flatMap (fun sa => sa.custom_fields.map (·.1))))

/-- The `requiredFields` set of `validateCustomFields` (deduplicated, in
insertion order). -/
def requiredFieldNames (tpl : TemplateSchema) : List String :=
  (collectFieldNames tpl).foldl addUnique []

/-- Return value of `validateCustomFields`. -/
structure FieldValidation where
  fieldMap : List (String × String)
  missingFields : List String
  existingFields : List String
deriving Repr, DecidableEq

/-- `validateCustomFields`: classify every referenced field name via the
two-tier match; matched names populate `foundFieldMap` (returned as
`fieldMap`), unmatched names populate `missingFields`. -/
def validateCustomFields (fields : List FieldDef) (tpl : TemplateSchema) :
    FieldValidation :=
  let req := requiredFieldNames tpl
  { fieldMap := req.filterMap (fun n => (matchField fields n).map (fun i => (n, i)))
    missingFields := req.filter (fun n => (matchField fields n).isNone)
    existingFields := (fields.map (·.name)).foldl addUnique [] }

/-- Object-spread merge `{...defaults, ...specific}` on association lists
with unique keys: values of `specific` win; keys overridden by `specific`
are modelled at their later position. -/
def mergeRecords (a b : List (String × String)) : List (String × String) :=
  a.filter (fun p => !(b.any (fun q => q.1 == p.1))) ++ b

/-- `formatCustomFields`: map every (name, value) pair of a record to a
`{id, value}` entry via exact-then-case-insensitive lookup in the found
field map, silently skipping unmatched names.  (The epoch-millisecond
coercion of date-like values is irrelevant to the claims and not
modelled.) -/
def formatCustomFields (fields : List (String × String))
    (fieldMap : List (String × String)) : List (String × String) :=
  let fieldMapLower := fieldMap.map (fun p => (strTrim (strLower p.1), p.2))
  fields.filterMap (fun p =>
    match lastAssoc fieldMap p.1 with
    | some i => some (i, p.2)
    | none =>
        match lastAssoc fieldMapLower (strTrim (strLower p.1)) with
        | some i => some (i, p.2)
        | none => none)

/-- `mergeAndFormatCustomFields`. -/
def mergeAndFormatCustomFields (defaults specific : List (String × String))
    (fieldMap : List (String × String)) : List (String × String) :=
  formatCustomFields (mergeRecords defaults specific) fieldMap

-- ==========================================
-- TemplateManager.validateTemplate (template-manager.ts)
-- ==========================================

/-- Return value of `validateTemplate`. -/
structure ValidationResult where
  valid : Bool
  errors : List String
deriving Repr, DecidableEq

/-- The duplicate-key error string. -/
def dupMsg (k : String) : String := "Duplicate phase key: " ++ k

/-- Errors contributed by one action (index `j`) of a phase. -/
def actionErrs (phaseName : String) (j : Nat) (a : ActionT) : List String :=
  (if a.name = "" then
    ["Action " ++ toString j ++ " in phase " ++ phaseName ++ " missing name"]
   else []) ++
  (match a.description with
   | some d =>
      if d.length > 500 then
        ["Action " ++ a.name ++ " description exceeds 500 characters"]
      else []
   | none => [])

/-- `phase.actions?.forEach((action, j) => ...)`. -/
def actionErrsAux (phaseName : String) : Nat → List ActionT → List String
| _, [] => []
| j, a :: rest => actionErrs phaseName j a ++ actionErrsAux phaseName (j + 1) rest

/-- Errors contributed by one phase (index `i`); `keys` is the list of all
phase keys of the template. -/
def phaseErrs (keys : List String) (i : Nat) (p : Phase) : List String :=
  (if p.name = "" then ["Phase " ++ toString i ++ " missing name"] else []) ++
  (if p.key = "" then ["Phase " ++ toString i ++ " missing key"] else []) ++
  (if (keys.filter (fun k => k == p.key)).length > 1 then [dupMsg p.key] else []) ++
  (match p.description with
   | some d =>
      if d.length > 500 then
        ["Phase " ++ p.name ++ " description exceeds 500 characters"]
      else []
   | none => []) ++
  actionErrsAux p.name 0 p.actions

/-- `template.phases?.forEach((phase, i) => ...)`. -/
def phaseErrsAux (keys : List String) : Nat → List Phase → List String
| _, [] => []
| i, p :: rest => phaseErrs keys i p ++ phaseErrsAux keys (i + 1) rest

/-- `TemplateManager.validateTemplate`.  The typed model always carries a
`meta`, a `destination` object and a `phases` array, so the
"Missing destination object" / "Missing or invalid phases array" branches
of the source (which guard against malformed dynamic input) cannot fire
here; JavaScript falsiness of an absent/empty string is modelled as
`= ""` for `meta` fields and as `Option.isNone` for destination ids. -/
def validateTemplate (tpl : TemplateSchema) : ValidationResult :=
  let metaErrs :=
    (if tpl.meta.slug = "" then ["Missing meta.slug"] else []) ++
    (if tpl.meta.version = "" then ["Missing meta.version"] else [])
  let destErrs :=
    if tpl.destination.list_id.isNone && tpl.destination.folder_id.isNone &&
        tpl.destination.space_id.isNone then
      ["Destination must have at least one of: list_id, folder_id, or space_id"]
    else []
  let errors := metaErrs ++ destErrs ++
    phaseErrsAux (tpl.phases.map (·.key)) 0 tpl.phases
  { valid := errors.length = 0, errors := errors }

-- ==========================================
-- Deployment state machine (deployTemplateSmartly)
-- ==========================================

/-- Nesting level of a task-creation call. -/
inductive Level where
| phase
| action
| sub
deriving Repr, DecidableEq

/-- Payload of a `createTask` call, restricted to the parts the claims
observe (`parent` is added only when the spec carries one, mirroring the
source's conditional `payload.parent` assignment). -/
structure TaskPayload where
  name : String
  parent : Option String
  custom_fields : List (String × String)
deriving Repr, DecidableEq

/-- One attempted `POST /list/{id}/task` call with its outcome. -/
structure CreateCall where
  level : Level
  payload : TaskPayload
  outcome : CreateOutcome
deriving Repr, DecidableEq

/-- The orchestrator's run state: the accumulating `DeploymentResult`,
the `createdTaskIds` / `createdChecklistIds` arrays, and the trace of
remote mutation calls (creations, checklist creations and the delete
attempts of rollback, each in chronological order). -/
structure St where
  createCalls : List CreateCall
  checklistCalls : List (String × CreateOutcome)
  deleteCalls : List (String × Bool)
  createdTaskIds : List String
  createdChecklistIds : List String
  result : DeploymentResult
deriving Repr, DecidableEq

/-- Initial `result` object of a run. -/
def initResult : DeploymentResult :=
  { success := false, mode := .existing_list, listId := "", phases := [],
    actions := [], checklists := [], errors := [], warnings := [],
    message := "", missingFields := [], fieldMapping := [] }

/-- Initial run state. -/
def initSt : St :=
  { createCalls := [], checklistCalls := [], deleteCalls := [],
    createdTaskIds := [], createdChecklistIds := [], result := initResult }

/-- `result.errors.push(m)`. -/
def St.pushError (st : St) (m : String) : St :=
  { st with result := { st.result with errors := st.result.errors ++ [m] } }

/-- `result.warnings.push(m)`. -/
def St.pushWarning (st : St) (m : String) : St :=
  { st with result := { st.result with warnings := st.result.warnings ++ [m] } }

/-- `createdTaskIds.push(t.id); result.phases.push(t)`. -/
def St.recordPhase (st : St) (t : RemoteTask) : St :=
  { st with createdTaskIds := st.createdTaskIds ++ [t.id]
            result := { st.result with phases := st.result.phases ++ [t] } }

/-- `createdTaskIds.push(t.id); result.actions.push(t)` (used for both
action and sub-action tasks, as in the source). -/
def St.recordAction (st : St) (t : RemoteTask) : St :=
  { st with createdTaskIds := st.createdTaskIds ++ [t.id]
            result := { st.result with actions := st.result.actions ++ [t] } }

/-- `createdChecklistIds.push(id); result.checklists.push(checklist)`. -/
def St.recordChecklist (st : St) (id : String) : St :=
  { st with createdChecklistIds := st.createdChecklistIds ++ [id]
            result := { st.result with checklists := st.result.checklists ++ [id] } }

/-- `createTask`: the n-th creation call of the run (n = number of calls
already traced) succeeds or fails as the environment dictates; a success
returns the created task. -/
def createTask (env : Env) (level : Level) (payload : TaskPayload)
    (st : St) : St × Except Err RemoteTask :=
  let outcome := env.createOutcomes st.createCalls.length
  let st' := { st with createCalls := st.createCalls ++ [⟨level, payload, outcome⟩] }
  match outcome with
  | .ok id => (st', .ok ⟨id, payload.name, payload.parent⟩)
  | .err b m => (st', .error ⟨b, m⟩)

/-- `createChecklist` (checklist creation plus item appends, abstracted as
one oracle outcome). -/
def createChecklist (env : Env) (taskId : String) (st : St) :
    St × Except Err String :=
  let outcome := env.checklistOutcomes st.checklistCalls.length
  let st' := { st with checklistCalls := st.checklistCalls ++ [(taskId, outcome)] }
  match outcome with
  | .ok id => (st', .ok id)
  | .err b m => (st', .error ⟨b, m⟩)

/-- The delete sweep of `rollback`: attempt one `DELETE /task/{id}` per
recorded id, in the given order, tolerating (merely recording) individual
failures. -/
def sweep (env : Env) : List String → St → St
| [], st => st
| id :: rest, st =>
    sweep env rest
      { st with deleteCalls :=
          st.deleteCalls ++ [(id, env.deleteOk st.deleteCalls.length)] }

/-- `rollback()`: a no-op unless `enableRollback`; otherwise reverse
`createdTaskIds` in place (JavaScript `Array.prototype.reverse` mutates)
and sweep-delete every recorded task. -/
def rollback (env : Env) (opts : Options) (st : St) : St :=
  if !opts.enableRollback then st
  else
    let rev := st.createdTaskIds.reverse
    sweep env rev { st with createdTaskIds := rev }

/-- The per-action catch block of the deploy loop: push the failure into
`result.errors`; with rollback enabled, roll back and re-throw (abort),
otherwise continue (the 429 cooldown wait has no modelled effect). -/
def handleActionFailure (env : Env) (opts : Options) (name : String)
    (e : Err) (st : St) : St × Option Err :=
  let st' := st.pushError ("Failed to create action \"" ++ name ++ "\": " ++ e.display)
  if opts.enableRollback then (rollback env opts st', some e) else (st', none)

/-- The nested sub-action loop.  A sub-action failure (creation or
checklist) is recorded and the loop continues — the source's sub-action
catch block has no rollback branch, so it never aborts. -/
def deploySubActions (env : Env) (opts : Options)
    (fieldMap : List (String × String)) (actionTaskId : String) :
    List ActionT → St → St
| [], st => st
| sa :: rest, st =>
    let (st1, r) := createTask env .sub
      ⟨sa.name, some actionTaskId, formatCustomFields sa.custom_fields fieldMap⟩ st
    match r with
    | .error e =>
        deploySubActions env opts fieldMap actionTaskId rest
          (st1.pushError
            ("Failed to create nested subtask \"" ++ sa.name ++ "\": " ++ e.display))
    | .ok task =>
        let st2 := st1.recordAction task
        let st3 :=
          match sa.checklist with
          | some cl =>
              if cl.items.length > 0 then
                let (stc, rc) := createChecklist env task.id st2
                match rc with
                | .ok cid => stc.recordChecklist cid
                | .error e =>
                    stc.pushError
                      ("Failed to create nested subtask \"" ++ sa.name ++ "\": " ++
                        e.display)
              else st2
          | none => st2
        deploySubActions env opts fieldMap actionTaskId rest st3

/-- One iteration of the action loop: create the action task as a subtask
of the phase task, then (on success) its nested sub-actions and its
checklist.  Any failure caught at this level goes through
`handleActionFailure`. -/
def processAction (env : Env) (opts : Options)
    (fieldMap : List (String × String)) (phaseTaskId : String)
    (a : ActionT) (st : St) : St × Option Err :=
  let (st1, r) := createTask env .action
    ⟨a.name, some phaseTaskId, formatCustomFields a.custom_fields fieldMap⟩ st
  match r with
  | .error e => handleActionFailure env opts a.name e st1
  | .ok task =>
      let st2 := st1.recordAction task
      let st3 := deploySubActions env opts fieldMap task.id a.actions st2
      match a.checklist with
      | some cl =>
          if cl.items.length > 0 then
            let (stc, rc) := createChecklist env task.id st3
            match rc with
            | .ok cid => (stc.recordChecklist cid, none)
            | .error e => handleActionFailure env opts a.name e stc
          else (st3, none)
      | none => (st3, none)

/-- The action loop of one phase; `some e` aborts (re-thrown error). -/
def deployActions (env : Env) (opts : Options)
    (fieldMap : List (String × String)) (phaseTaskId : String) :
    List ActionT → St → St × Option Err
| [], st => (st, none)
| a :: rest, st =>
    match processAction env opts fieldMap phaseTaskId a st with
    | (st', some e) => (st', some e)
    | (st', none) => deployActions env opts fieldMap phaseTaskId rest st'

/-- The per-phase catch block, identical in shape to the per-action one. -/
def handlePhaseFailure (env : Env) (opts : Options) (name : String)
    (e : Err) (st : St) : St × Option Err :=
  let st' := st.pushError ("Failed to create phase \"" ++ name ++ "\": " ++ e.display)
  if opts.enableRollback then (rollback env opts st', some e) else (st', none)

/-- One iteration of the phase loop: create the phase task (no `parent`;
custom fields merged from template defaults and the phase's own record),
then run the action loop; an abort bubbling out of the action loop is
caught by the phase-level catch (which pushes a phase error and, with
rollback enabled, rolls back again and re-throws). -/
def processPhase (env : Env) (opts : Options)
    (fieldMap : List (String × String))
    (defaultsCF : List (String × String)) (ph : Phase) (st : St) :
    St × Option Err :=
  let (st1, r) := createTask env .phase
    ⟨ph.name, none,
      mergeAndFormatCustomFields defaultsCF ph.custom_fields fieldMap⟩ st
  match r with
  | .error e => handlePhaseFailure env opts ph.name e st1
  | .ok task =>
      let st2 := st1.recordPhase task
      match deployActions env opts fieldMap task.id ph.actions st2 with
      | (st3, none) => (st3, none)
      | (st3, some e) => handlePhaseFailure env opts ph.name e st3

/-- The phase loop; `some e` is an abort reaching the top-level catch. -/
def deployPhases (env : Env) (opts : Options)
    (fieldMap : List (String × String))
    (defaultsCF : List (String × String)) :
    List Phase → St → St × Option Err
| [], st => (st, none)
| ph :: rest, st =>
    match processPhase env opts fieldMap defaultsCF ph st with
    | (st', some e) => (st', some e)
    | (st', none) => deployPhases env opts fieldMap defaultsCF rest st'

-- ==========================================
-- Destination resolution and target-list determination
-- ==========================================

/-- Step 1.5a: resolve `space_name` to `space_id` when only the name is
given, writing the resolved id back into the template document; the
second component is the error thrown on failure (the empty `teams` case
models the TypeError raised by `teams[0].id` in the source). -/
def resolveSpaceStep (env : Env) (tpl : TemplateSchema) :
    TemplateSchema × Option Err :=
  match tpl.destination.space_name, tpl.destination.space_id with
  | some nm, none =>
      (match env.teams with
       | [] =>
          (tpl, some ⟨false, "Failed to resolve space name \"" ++ nm ++
            "\": Cannot read properties of undefined"⟩)
       | _ :: _ =>
          match resolveSpaceId env.spaces nm with
          | .ok i =>
              ({ tpl with destination := { tpl.destination with space_id := some i } },
                none)
          | .error m =>
              (tpl, some ⟨false,
                "Failed to resolve space name \"" ++ nm ++ "\": " ++ m⟩))
  | _, _ => (tpl, none)

/-- Step 1.5b: resolve `folder_name` to `folder_id` (requires a space id,
possibly just resolved). -/
def resolveFolderStep (env : Env) (tpl : TemplateSchema) :
    TemplateSchema × Option Err :=
  match tpl.destination.folder_name, tpl.destination.folder_id with
  | some nm, none =>
      (match tpl.destination.space_id with
       | none =>
          (tpl, some ⟨false, "Failed to resolve folder name \"" ++ nm ++
            "\": space_id or space_name is required to resolve folder_name"⟩)
       | some sid =>
          match resolveFolderId (env.foldersOf sid) nm with
          | .ok i =>
              ({ tpl with destination := { tpl.destination with folder_id := some i } },
                none)
          | .error m =>
              (tpl, some ⟨false,
                "Failed to resolve folder name \"" ++ nm ++ "\": " ++ m⟩))
  | _, _ => (tpl, none)

/-- Step 1.5c: resolve `list_name` to `list_id` (parent scope is the
folder if one is known, else the space). -/
def resolveListStep (env : Env) (tpl : TemplateSchema) :
    TemplateSchema × Option Err :=
  match tpl.destination.list_name, tpl.destination.list_id with
  | some nm, none =>
      (match tpl.destination.folder_id, tpl.destination.space_id with
       | some fid, _ =>
          (match resolveListId (env.folderListsOf fid) "folder" nm with
           | .ok i =>
              ({ tpl with destination := { tpl.destination with list_id := some i } },
                none)
           | .error m =>
              (tpl, some ⟨false,
                "Failed to resolve list name \"" ++ nm ++ "\": " ++ m⟩))
       | none, some sid =>
          (match resolveListId (env.spaceListsOf sid) "space" nm with
           | .ok i =>
              ({ tpl with destination := { tpl.destination with list_id := some i } },
                none)
           | .error m =>
              (tpl, some ⟨false,
                "Failed to resolve list name \"" ++ nm ++ "\": " ++ m⟩))
       | none, none =>
          (tpl, some ⟨false, "Failed to resolve list name \"" ++ nm ++
            "\": space_id/space_name or folder_id/folder_name is required to resolve list_name"⟩))
  | _, _ => (tpl, none)

/-- Step 1.5: the three resolution steps in order, stopping at the first
failure; the partially mutated template survives a later failure, exactly
as the in-place mutation of the source does. -/
def resolveDestination (env : Env) (tpl : TemplateSchema) :
    TemplateSchema × Option Err :=
  match resolveSpaceStep env tpl with
  | (tpl1, some e) => (tpl1, some e)
  | (tpl1, none) =>
      match resolveFolderStep env tpl1 with
      | (tpl2, some e) => (tpl2, some e)
      | (tpl2, none) => resolveListStep env tpl2

/-- Step 2: determine the target list (existing `list_id`, or a newly
created list when allowed); returns the list id, the mode and the
warnings to add.  The internals of `createNewList` are abstracted by the
oracle `newListId`. -/
def determineTarget (env : Env) (opts : Options) (tpl : TemplateSchema) :
    Except Err (String × Mode × List String) :=
  match tpl.destination.list_id with
  | some lid => .ok (lid, .existing_list, [])
  | none =>
      if tpl.destination.folder_id.isSome || tpl.destination.space_id.isSome then
        if opts.createNewListIfNeeded then
          match env.newListId with
          | some lid =>
              .ok (lid, .new_list,
                ["New list created. Custom fields must be added manually in ClickUp UI."])
          | none => .error ⟨false, "Failed to create new list"⟩
        else .error ⟨false, "No list_id provided and createNewListIfNeeded is false"⟩
      else .error ⟨false, "No list_id, folder_id, or space_id provided in template"⟩

-- ==========================================
-- Top level of deployTemplateSmartly
-- ==========================================

/-- How a deployment run ended: normal summarization, the
stop-on-missing-fields early `return`, or an error caught by the
top-level catch block. -/
inductive ExitKind where
| normal
| earlyStop
| caught
deriving Repr, DecidableEq

/-- A completed run: how it exited, the (possibly mutated) template
document as the caller's object holds it afterwards, and the final state
(whose `result` field is the returned `DeploymentResult`). -/
structure Run where
  exit : ExitKind
  template : TemplateSchema
  st : St
deriving Repr

/-- The result mutations of the top-level catch block
(`success = false; message = error.message; errors.push(...)`). -/
def failResult (e : Err) (r : DeploymentResult) : DeploymentResult :=
  { r with success := false, message := e.msg, errors := r.errors ++ [e.msg] }

/-- The top-level catch block: mark the run failed, surface the raw error
message, and roll back if enabled and anything was created. -/
def topCatch (env : Env) (opts : Options) (e : Err) (tpl : TemplateSchema)
    (st : St) : Run :=
  ⟨.caught, tpl,
    if opts.enableRollback && st.createdTaskIds.length > 0 then
      rollback env opts { st with result := failResult e st.result }
    else { st with result := failResult e st.result }⟩

/-- The stop-on-missing-fields early return (`CASE 2` of the source). -/
def stopOnMissing (fv : FieldValidation) (tpl : TemplateSchema) (st : St) : Run :=
  let st1 := { st with result := { st.result with
      success := false
      message := "❌ STOPPED: Missing custom fields detected. Please create them in ClickUp first."
      errors := st.result.errors ++
        ["Missing fields: " ++ String.intercalate ", " fv.missingFields,
          "To fix: Go to List Settings → Custom Fields → Add Field",
          "Then run deployment again"] } }
  ⟨.earlyStop, tpl, st1⟩

/-- `template.defaults?.custom_fields` with absent treated as empty. -/
def defaultsCFOf (tpl : TemplateSchema) : List (String × String) :=
  match tpl.defaults with
  | some d => d.custom_fields
  | none => []

/-- Step 5 and 6: run the phase loop, then summarize
(`success = phases.length > 0`); an abort out of the loop falls to the
top-level catch. -/
def runPhasesAndFinalize (env : Env) (opts : Options)
    (fieldMap : List (String × String)) (tpl : TemplateSchema) (st : St) : Run :=
  match deployPhases env opts fieldMap (defaultsCFOf tpl) tpl.phases st with
  | (st1, some e) => topCatch env opts e tpl st1
  | (st1, none) =>
      let succ := st1.result.phases.length > 0
      ⟨.normal, tpl,
        { st1 with result := { st1.result with
            success := succ
            message :=
              if succ then
                "✅ Successfully deployed " ++ toString st1.result.phases.length ++
                " phases, " ++ toString st1.result.actions.length ++ " actions, " ++
                toString st1.result.checklists.length ++ " checklists to " ++
                (match st1.result.mode with
                 | .new_list => "NEW"
                 | .existing_list => "existing") ++ " list"
              else "❌ Deployment failed - check errors" } }⟩

/-- Step 3 onward, once a target list is known: validate custom fields,
honour `stopOnMissingFields`, then deploy the phases. -/
def fieldStageAndDeploy (env : Env) (opts : Options) (tpl : TemplateSchema)
    (lid : String) (st : St) : Run :=
  let fv := validateCustomFields (env.fieldsOf lid) tpl
  let st1 := { st with result := { st.result with fieldMapping := fv.fieldMap } }
  if fv.missingFields.isEmpty then
    runPhasesAndFinalize env opts fv.fieldMap tpl st1
  else
    let st2 := { st1 with result := { st1.result with missingFields := fv.missingFields } }
    if opts.stopOnMissingFields then
      stopOnMissing fv tpl st2
    else
      runPhasesAndFinalize env opts fv.fieldMap tpl
        (st2.pushWarning
          ("Continuing without fields: " ++ String.intercalate ", " fv.missingFields))

/-- `deployTemplateSmartly`: validate the connection, resolve destination
names (mutating the template document), determine the target list,
validate custom fields, deploy the phases and summarize; every thrown
error lands in the top-level catch.  (The access check and the role map
are log-only / irrelevant to the claims and not modelled.) -/
def deployTemplateSmartly (tpl : TemplateSchema) (opts : Options)
    (env : Env) : Run :=
  match env.user with
  | .error m => topCatch env opts ⟨false, m⟩ tpl initSt
  | .ok _ =>
      match resolveDestination env tpl with
      | (tpl1, some e) => topCatch env opts e tpl1 initSt
      | (tpl1, none) =>
          match determineTarget env opts tpl1 with
          | .error e => topCatch env opts e tpl1 initSt
          | .ok (lid, mode, warns) =>
              let st1 := { initSt with result := { initSt.result with
                  listId := lid, mode := mode,
                  warnings := initSt.result.warnings ++ warns } }
              fieldStageAndDeploy env opts tpl1 lid st1

-- ==========================================
-- Concrete inputs for witnesses and counterexamples
-- ==========================================

/-- Options: rollback enabled, no stop-on-missing, no new list. -/
def optsRB : Options := ⟨false, false, true⟩

/-- Options: everything off (rollback disabled). -/
def optsPlain : Options := ⟨false, false, false⟩

/-- Options: stop-on-missing-fields enabled. -/
def optsStop : Options := ⟨true, false, false⟩

/-- A phase named P with two childless actions A1, A2. -/
def phaseP2 : Phase :=
  { key := "p1"
    name := "P"
    description := none
    custom_fields := []
    actions := [.mk "A1" none [] none [], .mk "A2" none [] none []] }

/-- A phase named P with three childless actions A1, A2, A3. -/
def phaseP3 : Phase :=
  { key := "p1"
    name := "P"
    description := none
    custom_fields := []
    actions := [.mk "A1" none [] none [], .mk "A2" none [] none [],
      .mk "A3" none [] none []] }

/-- A template whose destination is the existing list L1. -/
def tplL1 (phs : List Phase) : TemplateSchema :=
  { meta := ⟨"slug", "1.0.0"⟩
    destination := ⟨none, none, none, none, some "L1", none⟩
    defaults := none
    phases := phs }

/-- A benign environment: valid user, no fields on any list, every remote
creation succeeds with id `t<n>`, every delete succeeds. -/
def envOk : Env :=
  { user := .ok "alice"
    teams := ["T1"]
    spaces := []
    foldersOf := fun _ => []
    spaceListsOf := fun _ => []
    folderListsOf := fun _ => []
    fieldsOf := fun _ => []
    newListId := none
    createOutcomes := fun n => .ok ("t" ++ toString n)
    checklistOutcomes := fun n => .ok ("c" ++ toString n)
    deleteOk := fun _ => true }

/-- `envOk` but the third creation call (index 2) fails with HTTP 429. -/
def env429 : Env :=
  { envOk with createOutcomes := fun n =>
      if n = 2 then .err true "429" else .ok ("t" ++ toString n) }

/-- `envOk` but every creation call fails with HTTP 429. -/
def envAllFail : Env :=
  { envOk with createOutcomes := fun _ => .err true "429" }

/-- C1 counterexample scenario: deploy `tplL1 [phaseP2]` with rollback
enabled against `env429` — phase and first action succeed (2 tasks
created), the second action's creation fails. -/
def runC1 : Run := deployTemplateSmartly (tplL1 [phaseP2]) optsRB env429

/-- C5 scenario: same 429 on the second action, rollback disabled, with a
third sibling action after the failing one. -/
def runC5 : Run := deployTemplateSmartly (tplL1 [phaseP3]) optsPlain env429

/-- C3 input: two phases sharing the key "a", otherwise well-formed. -/
def tplDupKey : TemplateSchema :=
  { meta := ⟨"s", "1"⟩
    destination := ⟨none, none, none, none, some "L1", none⟩
    defaults := none
    phases := [{ key := "a", name := "P1", description := none,
                 custom_fields := [], actions := [] },
               { key := "a", name := "P2", description := none,
                 custom_fields := [], actions := [] }] }

/-- C7 input: a template referencing custom field "Due Date". -/
def tplDueDate : TemplateSchema :=
  { meta := ⟨"s", "1"⟩
    destination := ⟨none, none, none, none, some "L1", none⟩
    defaults := none
    phases := [{ key := "p", name := "P", description := none,
                 custom_fields := [("Due Date", "2024-01-01")], actions := [] }] }

/-- C4 environment: list L1 carries no custom fields, so "Due Date" is
missing. -/
def runC4 : Run := deployTemplateSmartly tplDueDate optsStop envOk

/-- C6 input: one phase containing one action containing one nested
sub-action. -/
def tplNested : TemplateSchema :=
  tplL1 [{ key := "p1", name := "P", description := none, custom_fields := []
           actions := [.mk "A" none [] none [.mk "S" none [] none []]] }]

/-- C6/C2 witness run: fully successful nested deployment. -/
def runNested : Run := deployTemplateSmartly tplNested optsPlain envOk

/-- C8 environment: two spaces, one folder in s1, one list in f1. -/
def envDirs : Env :=
  { envOk with
      spaces := [⟨"s1", "Alpha"⟩, ⟨"s2", "Beta"⟩]
      foldersOf := fun sid => if sid = "s1" then [⟨"f1", "Docs"⟩] else []
      folderListsOf := fun fid => if fid = "f1" then [⟨"l1", "Tasks"⟩] else []
      spaceListsOf := fun _ => [] }

/-- C8/C10 input: destination given purely by names. -/
def tplNames : TemplateSchema :=
  { meta := ⟨"s", "1"⟩
    destination := ⟨none, some "alpha", none, some "docs", none, some "tasks"⟩
    defaults := none
    phases := [{ key := "p", name := "P", description := none,
                 custom_fields := [], actions := [] }] }

/-- C8 counter-input: a space name that matches nothing. -/
def tplBadSpace : TemplateSchema :=
  { tplNames with destination := ⟨none, some "Gamma", none, none, some "L1", none⟩ }

/-- A state with two recorded created tasks (rollback-unit witness input). -/
def stTwoTasks : St := { initSt with createdTaskIds := ["a", "b"] }

-- ==========================================
-- Helper lemmas: frame properties of the state operations
-- ==========================================

theorem sweep_frame (env : Env) (l : List String) : ∀ st : St,
    (sweep env l st).createCalls = st.createCalls ∧
    (sweep env l st).checklistCalls = st.checklistCalls ∧
    (sweep env l st).createdTaskIds = st.createdTaskIds ∧
    (sweep env l st).createdChecklistIds = st.createdChecklistIds ∧
    (sweep env l st).result = st.result := by
  induction l with
  | nil => intro st; simp [sweep]
  | cons id rest ih => intro st; simpa [sweep] using ih _

theorem sweep_deletes (env : Env) (l : List String) : ∀ st : St,
    ((sweep env l st).deleteCalls).map Prod.fst =
      st.deleteCalls.map Prod.fst ++ l := by
  induction l with
  | nil => intro st; simp [sweep]
  | cons id rest ih =>
      intro st
      simp only [sweep]
      rw [ih]
      simp

theorem rollback_frame (env : Env) (opts : Options) (st : St) :
    (rollback env opts st).createCalls = st.createCalls ∧
    (rollback env opts st).checklistCalls = st.checklistCalls ∧
    (rollback env opts st).createdChecklistIds = st.createdChecklistIds ∧
    (rollback env opts st).result = st.result := by
  unfold rollback
  split
  · exact ⟨rfl, rfl, rfl, rfl⟩
  · obtain ⟨h1, h2, _, h4, h5⟩ := sweep_frame env st.createdTaskIds.reverse
      { st with createdTaskIds := st.createdTaskIds.reverse }
    exact ⟨h1, h2, h4, h5⟩

theorem rollback_disabled (env : Env) (opts : Options) (st : St)
    (h : opts.enableRollback = false) : rollback env opts st = st := by
  unfold rollback
  rw [h]
  simp

theorem rollback_spec (env : Env) (opts : Options) (st : St)
    (h : opts.enableRollback = true) :
    ((rollback env opts st).deleteCalls).map Prod.fst =
      st.deleteCalls.map Prod.fst ++ st.createdTaskIds.reverse ∧
    (rollback env opts st).createdTaskIds = st.createdTaskIds.reverse := by
  unfold rollback
  rw [h]
  simp only [Bool.not_true, Bool.false_eq_true, if_false]
  exact ⟨sweep_deletes env _ _, (sweep_frame env _ _).2.2.1⟩

theorem topCatch_spec (env : Env) (opts : Options) (e : Err)
    (tpl : TemplateSchema) (st : St) :
    (topCatch env opts e tpl st).exit = .caught ∧
    (topCatch env opts e tpl st).template = tpl ∧
    (topCatch env opts e tpl st).st.result.success = false ∧
    (topCatch env opts e tpl st).st.result.message = e.msg ∧
    (topCatch env opts e tpl st).st.result.errors = st.result.errors ++ [e.msg] ∧
    (topCatch env opts e tpl st).st.result.phases = st.result.phases ∧
    (topCatch env opts e tpl st).st.result.actions = st.result.actions ∧
    (topCatch env opts e tpl st).st.result.checklists = st.result.checklists ∧
    (topCatch env opts e tpl st).st.result.missingFields = st.result.missingFields ∧
    (topCatch env opts e tpl st).st.createCalls = st.createCalls := by
  unfold topCatch
  split <;> simp [rollback_frame, failResult]

theorem stopOnMissing_spec (fv : FieldValidation) (tpl : TemplateSchema) (st : St) :
    (stopOnMissing fv tpl st).exit = .earlyStop ∧
    (stopOnMissing fv tpl st).template = tpl ∧
    (stopOnMissing fv tpl st).st.result.success = false ∧
    (stopOnMissing fv tpl st).st.result.message =
      "❌ STOPPED: Missing custom fields detected. Please create them in ClickUp first." ∧
    (stopOnMissing fv tpl st).st.result.errors = st.result.errors ++
      ["Missing fields: " ++ String.intercalate ", " fv.missingFields,
        "To fix: Go to List Settings → Custom Fields → Add Field",
        "Then run deployment again"] ∧
    (stopOnMissing fv tpl st).st.result.phases = st.result.phases ∧
    (stopOnMissing fv tpl st).st.result.actions = st.result.actions ∧
    (stopOnMissing fv tpl st).st.result.checklists = st.result.checklists ∧
    (stopOnMissing fv tpl st).st.result.missingFields = st.result.missingFields ∧
    (stopOnMissing fv tpl st).st.createCalls = st.createCalls := by
  unfold stopOnMissing
  simp

theorem resolveSpaceStep_frame (env : Env) (tpl : TemplateSchema) :
    (resolveSpaceStep env tpl).1.meta = tpl.meta ∧
    (resolveSpaceStep env tpl).1.defaults = tpl.defaults ∧
    (resolveSpaceStep env tpl).1.phases = tpl.phases ∧
    (resolveSpaceStep env tpl).1.destination.space_name = tpl.destination.space_name ∧
    (resolveSpaceStep env tpl).1.destination.folder_name = tpl.destination.folder_name ∧
    (resolveSpaceStep env tpl).1.destination.list_name = tpl.destination.list_name ∧
    (resolveSpaceStep env tpl).1.destination.folder_id = tpl.destination.folder_id ∧
    (resolveSpaceStep env tpl).1.destination.list_id = tpl.destination.list_id := by
  unfold resolveSpaceStep
  repeat' split
  all_goals simp

theorem resolveFolderStep_frame (env : Env) (tpl : TemplateSchema) :
    (resolveFolderStep env tpl).1.meta = tpl.meta ∧
    (resolveFolderStep env tpl).1.defaults = tpl.defaults ∧
    (resolveFolderStep env tpl).1.phases = tpl.phases ∧
    (resolveFolderStep env tpl).1.destination.space_name = tpl.destination.space_name ∧
    (resolveFolderStep env tpl).1.destination.folder_name = tpl.destination.folder_name ∧
    (resolveFolderStep env tpl).1.destination.list_name = tpl.destination.list_name ∧
    (resolveFolderStep env tpl).1.destination.space_id = tpl.destination.space_id ∧
    (resolveFolderStep env tpl).1.destination.list_id = tpl.destination.list_id := by
  unfold resolveFolderStep
  repeat' split
  all_goals simp

theorem resolveListStep_frame (env : Env) (tpl : TemplateSchema) :
    (resolveListStep env tpl).1.meta = tpl.meta ∧
    (resolveListStep env tpl).1.defaults = tpl.defaults ∧
    (resolveListStep env tpl).1.phases = tpl.phases ∧
    (resolveListStep env tpl).1.destination.space_name = tpl.destination.space_name ∧
    (resolveListStep env tpl).1.destination.folder_name = tpl.destination.folder_name ∧
    (resolveListStep env tpl).1.destination.list_name = tpl.destination.list_name ∧
    (resolveListStep env tpl).1.destination.space_id = tpl.destination.space_id ∧
    (resolveListStep env tpl).1.destination.folder_id = tpl.destination.folder_id := by
  unfold resolveListStep
  repeat' split
  all_goals simp

theorem resolveDestination_frame (env : Env) (tpl : TemplateSchema) :
    (resolveDestination env tpl).1.meta = tpl.meta ∧
    (resolveDestination env tpl).1.defaults = tpl.defaults ∧
    (resolveDestination env tpl).1.phases = tpl.phases ∧
    (resolveDestination env tpl).1.destination.space_name = tpl.destination.space_name ∧
    (resolveDestination env tpl).1.destination.folder_name = tpl.destination.folder_name ∧
    (resolveDestination env tpl).1.destination.list_name = tpl.destination.list_name := by
  unfold resolveDestination
  rcases h1 : resolveSpaceStep env tpl with ⟨t1, o1⟩
  have f1 := resolveSpaceStep_frame env tpl
  rw [h1] at f1
  cases o1 with
  | some e => simpa using ⟨f1.1, f1.2.1, f1.2.2.1, f1.2.2.2.1, f1.2.2.2.2.1, f1.2.2.2.2.2.1⟩
  | none =>
      rcases h2 : resolveFolderStep env t1 with ⟨t2, o2⟩
      have f2 := resolveFolderStep_frame env t1
      rw [h2] at f2
      cases o2 with
      | some e =>
          simp only [h2]
          exact ⟨f2.1.trans f1.1, (f2.2.1).trans f1.2.1, (f2.2.2.1).trans f1.2.2.1,
            (f2.2.2.2.1).trans f1.2.2.2.1, (f2.2.2.2.2.1).trans f1.2.2.2.2.1,
            (f2.2.2.2.2.2.1).trans f1.2.2.2.2.2.1⟩
      | none =>
          simp only [h2]
          have f3 := resolveListStep_frame env t2
          exact ⟨(f3.1.trans f2.1).trans f1.1,
            ((f3.2.1).trans f2.2.1).trans f1.2.1,
            ((f3.2.2.1).trans f2.2.2.1).trans f1.2.2.1,
            ((f3.2.2.2.1).trans f2.2.2.2.1).trans f1.2.2.2.1,
            ((f3.2.2.2.2.1).trans f2.2.2.2.2.1).trans f1.2.2.2.2.1,
            ((f3.2.2.2.2.2.1).trans f2.2.2.2.2.2.1).trans f1.2.2.2.2.2.1⟩

theorem runPhasesAndFinalize_success_iff (env : Env) (opts : Options)
    (fm : List (String × String)) (tpl : TemplateSchema) (st : St) :
    (runPhasesAndFinalize env opts fm tpl st).st.result.success = true ↔
    ((runPhasesAndFinalize env opts fm tpl st).exit = .normal ∧
     (runPhasesAndFinalize env opts fm tpl st).st.result.phases ≠ []) := by
  unfold runPhasesAndFinalize
  rcases h : deployPhases env opts fm (defaultsCFOf tpl) tpl.phases st with ⟨st1, o⟩
  cases o with
  | some e =>
      have hT := topCatch_spec env opts e tpl st1
      simp [hT.1, hT.2.2.1]
  | none => simp [List.length_pos]

theorem fieldStage_success_iff (env : Env) (opts : Options)
    (tpl : TemplateSchema) (lid : String) (st : St) :
    (fieldStageAndDeploy env opts tpl lid st).st.result.success = true ↔
    ((fieldStageAndDeploy env opts tpl lid st).exit = .normal ∧
     (fieldStageAndDeploy env opts tpl lid st).st.result.phases ≠ []) := by
  unfold fieldStageAndDeploy
  by_cases h1 : (validateCustomFields (env.fieldsOf lid) tpl).missingFields.isEmpty
  · simp only [h1, if_true]
    exact runPhasesAndFinalize_success_iff _ _ _ _ _
  · simp only [h1, Bool.false_eq_true, if_false]
    by_cases h2 : opts.stopOnMissingFields
    · simp only [h2, if_true]
      simp [stopOnMissing_spec]
    · simp only [h2, Bool.false_eq_true, if_false]
      exact runPhasesAndFinalize_success_iff _ _ _ _ _

/-- C2: `DeploymentResult.success` is true exactly when the run reached
the summarizing step (no early return, no caught error) with at least one
phase task created. -/
theorem C2_success_iff (tpl : TemplateSchema) (opts : Options) (env : Env) :
    (deployTemplateSmartly tpl opts env).st.result.success = true ↔
    ((deployTemplateSmartly tpl opts env).exit = .normal ∧
     (deployTemplateSmartly tpl opts env).st.result.phases ≠ []) := by
  unfold deployTemplateSmartly
  cases hu : env.user with
  | error m =>
      have hT := topCatch_spec env opts ⟨false, m⟩ tpl initSt
      simp [hT.1, hT.2.2.1]
  | ok u =>
      rcases hr : resolveDestination env tpl with ⟨t1, o⟩
      cases o with
      | some e =>
          have hT := topCatch_spec env opts e t1 initSt
          simp [hT.1, hT.2.2.1]
      | none =>
          dsimp only
          rcases ht : determineTarget env opts t1 with e | ⟨lid, mode, warns⟩
          · have hT := topCatch_spec env opts e t1 initSt
            simp [hT.1, hT.2.2.1]
          · exact fieldStage_success_iff _ _ _ _ _

theorem fieldStage_empty_phases (env : Env) (opts : Options)
    (tpl : TemplateSchema) (lid : String) (st : St) (hp : tpl.phases = [])
    (h1 : st.result.phases = []) (h2 : st.result.actions = [])
    (h3 : st.createCalls = []) :
    (fieldStageAndDeploy env opts tpl lid st).st.result.success = false ∧
    (fieldStageAndDeploy env opts tpl lid st).st.result.phases = [] ∧
    (fieldStageAndDeploy env opts tpl lid st).st.result.actions = [] ∧
    (fieldStageAndDeploy env opts tpl lid st).st.createCalls = [] := by
  unfold fieldStageAndDeploy runPhasesAndFinalize
  rw [hp]
  by_cases hm : (validateCustomFields (env.fieldsOf lid) tpl).missingFields.isEmpty
  · simp [hm, deployPhases, h1, h2, h3]
  · by_cases hs : opts.stopOnMissingFields
    · have hS := stopOnMissing_spec (validateCustomFields (env.fieldsOf lid) tpl) tpl
        { st with result := { st.result with
            fieldMapping := (validateCustomFields (env.fieldsOf lid) tpl).fieldMap
            missingFields := (validateCustomFields (env.fieldsOf lid) tpl).missingFields } }
      simp only [hm, Bool.false_eq_true, if_false, hs, if_true]
      exact ⟨hS.2.2.1, by rw [hS.2.2.2.2.2.1]; exact h1,
        by rw [hS.2.2.2.2.2.2.1]; exact h2, by rw [hS.2.2.2.2.2.2.2.2.2]; exact h3⟩
    · simp [hm, hs, deployPhases, h1, h2, h3, St.pushWarning]

/-- C9: a template with an empty `phases` array yields `success = false`,
empty `phases` and `actions` in the result, and zero attempted remote
task creations. -/
theorem C9_empty_phases (tpl : TemplateSchema) (opts : Options) (env : Env)
    (h : tpl.phases = []) :
    (deployTemplateSmartly tpl opts env).st.result.success = false ∧
    (deployTemplateSmartly tpl opts env).st.result.phases = [] ∧
    (deployTemplateSmartly tpl opts env).st.result.actions = [] ∧
    (deployTemplateSmartly tpl opts env).st.createCalls = [] := by
  unfold deployTemplateSmartly
  cases hu : env.user with
  | error m =>
      have hT := topCatch_spec env opts ⟨false, m⟩ tpl initSt
      exact ⟨hT.2.2.1, hT.2.2.2.2.2.1, hT.2.2.2.2.2.2.1, hT.2.2.2.2.2.2.2.2.2⟩
  | ok u =>
      rcases hr : resolveDestination env tpl with ⟨t1, o⟩
      have hph : t1.phases = [] := by
        have := (resolveDestination_frame env tpl).2.2.1
        rw [hr] at this
        rw [this, h]
      cases o with
      | some e =>
          have hT := topCatch_spec env opts e t1 initSt
          exact ⟨hT.2.2.1, hT.2.2.2.2.2.1, hT.2.2.2.2.2.2.1, hT.2.2.2.2.2.2.2.2.2⟩
      | none =>
          dsimp only
          rcases ht : determineTarget env opts t1 with e | ⟨lid, mode, warns⟩
          · have hT := topCatch_spec env opts e t1 initSt
            exact ⟨hT.2.2.1, hT.2.2.2.2.2.1, hT.2.2.2.2.2.2.1, hT.2.2.2.2.2.2.2.2.2⟩
          · exact fieldStage_empty_phases _ _ _ _ _ hph rfl rfl rfl

/-- C1 counterexample: with rollback enabled, after the phase task t0 and
first action t1 were created (N = 2) the second action's creation fails;
the run attempts 6 delete calls, not 2, because the single failure is
re-thrown through the phase-level and top-level catch blocks, each of
which invokes rollback again — and the in-place `reverse()` makes the
second sweep run in creation order. -/
theorem C1_counterexample :
    runC1.st.createdTaskIds.length = 2 ∧
    runC1.st.result.phases.length = 1 ∧
    runC1.st.result.actions.length = 1 ∧
    runC1.st.deleteCalls.map Prod.fst = ["t1", "t0", "t0", "t1", "t1", "t0"] ∧
    runC1.st.deleteCalls.length ≠ 2 := by
  exact ⟨rfl, rfl, rfl, rfl, by decide⟩

/-- C1 amended: each single invocation of `rollback()` attempts exactly
one delete per recorded created task, in exactly the reverse of the
recorded order, tolerating individual delete failures (the attempted
sequence is independent of the delete outcomes, and the accumulated
result is untouched); it also reverses `createdTaskIds` in place, which
is why the repeated invocations of the counterexample alternate order. -/
theorem C1_rollback_amended (env : Env) (opts : Options) (st : St)
    (h : opts.enableRollback = true) :
    ((rollback env opts st).deleteCalls).map Prod.fst =
      st.deleteCalls.map Prod.fst ++ st.createdTaskIds.reverse ∧
    (rollback env opts st).createdTaskIds = st.createdTaskIds.reverse ∧
    (rollback env opts st).result = st.result := by
  refine ⟨(rollback_spec env opts st h).1, (rollback_spec env opts st h).2, ?_⟩
  exact (rollback_frame env opts st).2.2.2

/-- C1 witness: the amended rollback property at a concrete state with
two recorded tasks. -/
theorem C1_rollback_amended_witness :
    optsRB.enableRollback = true ∧
    ((rollback envOk optsRB stTwoTasks).deleteCalls).map Prod.fst = ["b", "a"] ∧
    (rollback envOk optsRB stTwoTasks).createdTaskIds = ["b", "a"] := by
  have h := C1_rollback_amended envOk optsRB stTwoTasks rfl
  refine ⟨rfl, ?_, ?_⟩
  · rw [h.1]; rfl
  · rw [h.2.1]; rfl

-- ==========================================
-- String helpers for the duplicate-key analysis
-- ==========================================

theorem dupMsg_take2 (k : String) : (dupMsg k).data.take 2 = ['D', 'u'] := rfl

theorem ne_dupMsg {s : String} (k : String) (h : s.data.take 2 ≠ ['D', 'u']) :
    s ≠ dupMsg k := by
  intro he
  exact h (by rw [he]; exact dupMsg_take2 k)

theorem ne_dup_of_take2 {s : String} (k : String) (c₁ c₂ : Char)
    (h : s.data.take 2 = [c₁, c₂]) (hne : ¬(c₁ = 'D' ∧ c₂ = 'u')) :
    s ≠ dupMsg k := by
  apply ne_dupMsg
  rw [h]
  intro he
  simp only [List.cons.injEq, and_true] at he
  exact hne ⟨he.1, he.2⟩

theorem dupMsg_inj {a b : String} (h : dupMsg a = dupMsg b) : a = b := by
  unfold dupMsg at h
  have hd := String.ext_iff.mp h
  simp only [String.data_append] at hd
  exact String.ext (List.append_cancel_left hd)

theorem count_single_ne {a b : String} (h : b ≠ a) : List.count a [b] = 0 :=
  List.count_eq_zero.mpr (by simp only [List.mem_singleton]; exact fun hh => h hh.symm)

theorem count_actionErrs (nm : String) (j : Nat) (a : ActionT) (k : String) :
    (actionErrs nm j a).count (dupMsg k) = 0 := by
  unfold actionErrs
  rw [List.count_append]
  have h1 : List.count (dupMsg k)
      (if a.name = "" then
        ["Action " ++ toString j ++ " in phase " ++ nm ++ " missing name"]
       else []) = 0 := by
    split
    · exact count_single_ne (ne_dup_of_take2 k 'A' 'c' rfl (by decide))
    · rfl
  have h2 : List.count (dupMsg k)
      (match a.description with
       | some d =>
          if d.length > 500 then
            ["Action " ++ a.name ++ " description exceeds 500 characters"]
          else []
       | none => []) = 0 := by
    rcases a.description with _ | d
    · rfl
    · dsimp only
      split
      · exact count_single_ne (ne_dup_of_take2 k 'A' 'c' rfl (by decide))
      · rfl
  rw [h1, h2]

theorem count_actionErrsAux (nm : String) (k : String) (l : List ActionT) :
    ∀ j, (actionErrsAux nm j l).count (dupMsg k) = 0 := by
  induction l with
  | nil => intro j; rfl
  | cons a rest ih =>
      intro j
      simp only [actionErrsAux, List.count_append, count_actionErrs, ih (j + 1)]

theorem count_phaseErrs (keys : List String) (k : String) (i : Nat) (p : Phase) :
    (phaseErrs keys i p).count (dupMsg k) =
      if p.key = k ∧ 1 < keys.count k then 1 else 0 := by
  unfold phaseErrs
  simp only [List.count_append]
  have h1 : List.count (dupMsg k)
      (if p.name = "" then ["Phase " ++ toString i ++ " missing name"] else []) = 0 := by
    split
    · exact count_single_ne (ne_dup_of_take2 k 'P' 'h' rfl (by decide))
    · rfl
  have h2 : List.count (dupMsg k)
      (if p.key = "" then ["Phase " ++ toString i ++ " missing key"] else []) = 0 := by
    split
    · exact count_single_ne (ne_dup_of_take2 k 'P' 'h' rfl (by decide))
    · rfl
  have h4 : List.count (dupMsg k)
      (match p.description with
       | some d =>
          if d.length > 500 then
            ["Phase " ++ p.name ++ " description exceeds 500 characters"]
          else []
       | none => []) = 0 := by
    rcases p.description with _ | d
    · rfl
    · dsimp only
      split
      · exact count_single_ne (ne_dup_of_take2 k 'P' 'h' rfl (by decide))
      · rfl
  have hfl : (keys.filter (fun x => x == p.key)).length = keys.count p.key := by
    rw [List.count_eq_countP, List.countP_eq_length_filter]
  have h3 : List.count (dupMsg k)
      (if (keys.filter (fun x => x == p.key)).length > 1 then [dupMsg p.key] else []) =
      if p.key = k ∧ 1 < keys.count k then 1 else 0 := by
    rw [hfl]
    by_cases hpk : p.key = k
    · subst hpk
      by_cases hc : 1 < keys.count p.key
      · simp [hc, List.count_singleton]
      · simp [hc]
    · have hne : dupMsg p.key ≠ dupMsg k := fun he => hpk (dupMsg_inj he)
      split
      · simp [count_single_ne hne, hpk]
      · simp [hpk]
  rw [h1, h2, h3, h4, count_actionErrsAux]
  omega

theorem count_phaseErrsAux (keys : List String) (k : String)
    (hk : 1 < keys.count k) (ps : List Phase) : ∀ i,
    (phaseErrsAux keys i ps).count (dupMsg k) =
      ps.countP (fun p => p.key == k) := by
  induction ps with
  | nil => intro i; rfl
  | cons p rest ih =>
      intro i
      simp only [phaseErrsAux, List.count_append, count_phaseErrs, ih (i + 1),
        List.countP_cons]
      by_cases hpk : p.key = k
      · simp only [hpk, hk, and_true, if_true, beq_self_eq_true, if_pos]
        omega
      · have : (p.key == k) = false := by simp [hpk]
        simp [hpk, this]

/-- C3 counterexample: a template with two phases sharing the key "a" is
reported invalid, but with TWO "Duplicate phase key: a" errors (one per
offending phase), not exactly one error for the duplicate key. -/
theorem C3_counterexample :
    (validateTemplate tplDupKey).valid = false ∧
    (validateTemplate tplDupKey).errors =
      [dupMsg "a", dupMsg "a"] ∧
    (validateTemplate tplDupKey).errors.count (dupMsg "a") ≠ 1 := by
  exact ⟨rfl, rfl, by decide⟩

/-- C3 amended: for every duplicated key the validator emits one
duplicate-key error per phase carrying that key — m errors for a key of
multiplicity m ≥ 2, not one — and the template is reported invalid. -/
theorem C3_amended (tpl : TemplateSchema) (k : String)
    (hk : 1 < (tpl.phases.map (·.key)).count k) :
    (validateTemplate tpl).errors.count (dupMsg k) =
      (tpl.phases.map (·.key)).count k ∧
    (validateTemplate tpl).valid = false := by
  have hcount : (validateTemplate tpl).errors.count (dupMsg k) =
      (tpl.phases.map (·.key)).count k := by
    unfold validateTemplate
    dsimp only
    simp only [List.count_append]
    have hm1 : List.count (dupMsg k)
        (if tpl.meta.slug = "" then ["Missing meta.slug"] else []) = 0 := by
      split
      · exact count_single_ne (ne_dup_of_take2 k 'M' 'i' rfl (by decide))
      · rfl
    have hm2 : List.count (dupMsg k)
        (if tpl.meta.version = "" then ["Missing meta.version"] else []) = 0 := by
      split
      · exact count_single_ne (ne_dup_of_take2 k 'M' 'i' rfl (by decide))
      · rfl
    have hd : List.count (dupMsg k)
        (if tpl.destination.list_id.isNone && tpl.destination.folder_id.isNone &&
            tpl.destination.space_id.isNone then
          ["Destination must have at least one of: list_id, folder_id, or space_id"]
         else []) = 0 := by
      split
      · exact count_single_ne (ne_dup_of_take2 k 'D' 'e' rfl (by decide))
      · rfl
    rw [hm1, hm2, hd, count_phaseErrsAux _ _ hk _ 0]
    have hmap : (tpl.phases.map (·.key)).count k =
        tpl.phases.countP (fun p => p.key == k) := by
      rw [List.count_eq_countP, List.countP_map]
      rfl
    omega
  refine ⟨hcount, ?_⟩
  have hpos : 0 < (validateTemplate tpl).errors.count (dupMsg k) := by omega
  have hmem : dupMsg k ∈ (validateTemplate tpl).errors := by
    by_contra hmm
    rw [List.count_eq_zero.mpr hmm] at hpos
    omega
  have hlen : (validateTemplate tpl).errors.length ≠ 0 := by
    intro h0
    rw [List.length_eq_zero] at h0
    rw [h0] at hmem
    exact (List.not_mem_nil _) hmem
  show (validateTemplate tpl).valid = false
  unfold validateTemplate at hlen ⊢
  dsimp only at hlen ⊢
  exact decide_eq_false hlen

/-- C3 witness: the amended statement at the concrete duplicate-key
template. -/
theorem C3_amended_witness :
    1 < ((tplDupKey.phases.map (·.key)).count "a") ∧
    (validateTemplate tplDupKey).errors.count (dupMsg "a") = 2 ∧
    (validateTemplate tplDupKey).valid = false := by
  have h := C3_amended tplDupKey "a" (by decide)
  exact ⟨by decide, by rw [h.1]; decide, h.2⟩

/-- C9 witness input. -/
theorem C9_witness :
    (tplL1 []).phases = [] ∧
    (deployTemplateSmartly (tplL1 []) optsPlain envOk).st.result.success = false ∧
    (deployTemplateSmartly (tplL1 []) optsPlain envOk).st.result.phases = [] ∧
    (deployTemplateSmartly (tplL1 []) optsPlain envOk).st.result.actions = [] ∧
    (deployTemplateSmartly (tplL1 []) optsPlain envOk).st.createCalls = [] := by
  refine ⟨rfl, ?_⟩
  exact C9_empty_phases (tplL1 []) optsPlain envOk rfl

/-- C4: with `stopOnMissingFields` set, a run that reaches field
validation and finds missing fields returns via the early-stop branch:
`success = false`, the structured stop message, the missing names in both
`missingFields` and `errors`, empty `phases` / `actions` / `checklists`,
and zero attempted task creations. -/
theorem C4_stop_on_missing (tpl : TemplateSchema) (opts : Options) (env : Env)
    (u : String) (tpl1 : TemplateSchema) (lid : String) (mode : Mode)
    (warns : List String)
    (hu : env.user = .ok u)
    (hr : resolveDestination env tpl = (tpl1, none))
    (ht : determineTarget env opts tpl1 = .ok (lid, mode, warns))
    (hs : opts.stopOnMissingFields = true)
    (hm : (validateCustomFields (env.fieldsOf lid) tpl1).missingFields ≠ []) :
    (deployTemplateSmartly tpl opts env).exit = .earlyStop ∧
    (deployTemplateSmartly tpl opts env).st.result.success = false ∧
    (deployTemplateSmartly tpl opts env).st.result.message =
      "❌ STOPPED: Missing custom fields detected. Please create them in ClickUp first." ∧
    (deployTemplateSmartly tpl opts env).st.result.missingFields =
      (validateCustomFields (env.fieldsOf lid) tpl1).missingFields ∧
    (deployTemplateSmartly tpl opts env).st.result.errors =
      ["Missing fields: " ++ String.intercalate ", "
          (validateCustomFields (env.fieldsOf lid) tpl1).missingFields,
        "To fix: Go to List Settings → Custom Fields → Add Field",
        "Then run deployment again"] ∧
    (deployTemplateSmartly tpl opts env).st.result.phases = [] ∧
    (deployTemplateSmartly tpl opts env).st.result.actions = [] ∧
    (deployTemplateSmartly tpl opts env).st.result.checklists = [] ∧
    (deployTemplateSmartly tpl opts env).st.createCalls = [] := by
  have hm' : (validateCustomFields (env.fieldsOf lid) tpl1).missingFields.isEmpty = false := by
    cases h : (validateCustomFields (env.fieldsOf lid) tpl1).missingFields.isEmpty
    · rfl
    · exact absurd (List.isEmpty_iff.mp h) hm
  unfold deployTemplateSmartly
  rw [hu]
  dsimp only
  rw [hr]
  dsimp only
  rw [ht]
  dsimp only
  unfold fieldStageAndDeploy
  simp only [hm', Bool.false_eq_true, if_false, hs, if_true]
  simp [stopOnMissing_spec, initSt, initResult]

/-- C4 witness: the stop-on-missing branch at a concrete run (list "L1"
has no live fields, template references "Due Date"). -/
theorem C4_witness :
    optsStop.stopOnMissingFields = true ∧
    (validateCustomFields (envOk.fieldsOf "L1") tplDueDate).missingFields =
      ["Due Date"] ∧
    runC4.exit = .earlyStop ∧
    runC4.st.result.success = false ∧
    runC4.st.result.missingFields = ["Due Date"] ∧
    runC4.st.result.errors =
      ["Missing fields: Due Date",
        "To fix: Go to List Settings → Custom Fields → Add Field",
        "Then run deployment again"] ∧
    runC4.st.result.phases = [] ∧
    runC4.st.createCalls = [] := by
  have h := C4_stop_on_missing tplDueDate optsStop envOk "alice" tplDueDate
    "L1" .existing_list [] rfl rfl rfl rfl (by decide)
  refine ⟨rfl, by decide, h.1, h.2.1, ?_, ?_, h.2.2.2.2.2.1, h.2.2.2.2.2.2.2.2⟩
  · show (deployTemplateSmartly tplDueDate optsStop envOk).st.result.missingFields = _
    rw [h.2.2.2.1]
    decide
  · show (deployTemplateSmartly tplDueDate optsStop envOk).st.result.errors = _
    rw [h.2.2.2.2.1]
    decide

-- ==========================================
-- Field-matching lemmas (C7)
-- ==========================================

theorem assocFind_filterMap_some (fields : List FieldDef) (name : String)
    (i : String) (hmatch : matchField fields name = some i) :
    ∀ req : List String, name ∈ req →
    assocFind (req.filterMap
      (fun n => (matchField fields n).map (fun j => (n, j)))) name = some i := by
  intro req
  induction req with
  | nil => intro h; cases h
  | cons a rest ih =>
      intro hmem
      by_cases ha : a = name
      · subst ha
        simp only [List.filterMap_cons, hmatch, Option.map_some']
        simp [assocFind]
      · have hmem' : name ∈ rest := by
          cases List.mem_cons.mp hmem with
          | inl h => exact absurd h.symm ha
          | inr h => exact h
        cases hma : matchField fields a with
        | none => simp only [List.filterMap_cons, hma, Option.map_none']; exact ih hmem'
        | some j =>
            simp only [List.filterMap_cons, hma, Option.map_some']
            have : assocFind ((a, j) ::
                rest.filterMap (fun n => (matchField fields n).map (fun j => (n, j))))
                name =
                assocFind (rest.filterMap
                  (fun n => (matchField fields n).map (fun j => (n, j)))) name := by
              simp [assocFind, ha]
            rw [this]
            exact ih hmem'

theorem assocFind_filterMap_none (fields : List FieldDef) (name : String)
    (hmatch : matchField fields name = none) (req : List String) :
    assocFind (req.filterMap
      (fun n => (matchField fields n).map (fun j => (n, j)))) name = none := by
  induction req with
  | nil => rfl
  | cons a rest ih =>
      by_cases ha : a = name
      · subst ha
        simp only [List.filterMap_cons, hmatch, Option.map_none']
        exact ih
      · cases hma : matchField fields a with
        | none => simp only [List.filterMap_cons, hma, Option.map_none']; exact ih
        | some j =>
            simp only [List.filterMap_cons, hma, Option.map_some']
            have : assocFind ((a, j) ::
                rest.filterMap (fun n => (matchField fields n).map (fun j => (n, j))))
                name =
                assocFind (rest.filterMap
                  (fun n => (matchField fields n).map (fun j => (n, j)))) name := by
              simp [assocFind, ha]
            rw [this]
            exact ih

/-- C7: the two-tier matching policy of field validation.  An exact-name
hit decides the match (it wins over any case-insensitive hit); a name
matched (exactly or case-insensitively) for any referenced field name is
reported in `fieldMap` under the template's own spelling and is not in
`missingFields`; an unmatched name lands in `missingFields` and not in
`fieldMap`. -/
theorem C7_two_tier_matching (fields : List FieldDef) (tpl : TemplateSchema)
    (name : String) (hmem : name ∈ requiredFieldNames tpl) :
    (∀ i, exactLookup fields name = some i → matchField fields name = some i) ∧
    (∀ i, matchField fields name = some i →
      assocFind (validateCustomFields fields tpl).fieldMap name = some i ∧
      name ∉ (validateCustomFields fields tpl).missingFields) ∧
    (matchField fields name = none →
      name ∈ (validateCustomFields fields tpl).missingFields ∧
      assocFind (validateCustomFields fields tpl).fieldMap name = none) := by
  refine ⟨?_, ?_, ?_⟩
  · intro i h
    unfold matchField
    rw [h]
  · intro i h
    constructor
    · exact assocFind_filterMap_some fields name i h _ hmem
    · intro hin
      have := (List.mem_filter.mp hin).2
      rw [h] at this
      simp at this
  · intro h
    constructor
    · exact List.mem_filter.mpr ⟨hmem, by rw [h]; rfl⟩
    · exact assocFind_filterMap_none fields name h _

/-- C7 witness: template name "Due Date" against a destination field
named "due date": no exact match, case-insensitive match found, reported
in the field map and not missing. -/
theorem C7_witness :
    "Due Date" ∈ requiredFieldNames tplDueDate ∧
    exactLookup [⟨"f1", "due date"⟩] "Due Date" = none ∧
    matchField [⟨"f1", "due date"⟩] "Due Date" = some "f1" ∧
    assocFind (validateCustomFields [⟨"f1", "due date"⟩] tplDueDate).fieldMap
      "Due Date" = some "f1" ∧
    "Due Date" ∉ (validateCustomFields [⟨"f1", "due date"⟩] tplDueDate).missingFields := by
  have h := (C7_two_tier_matching [⟨"f1", "due date"⟩] tplDueDate "Due Date"
    (by decide)).2.1 "f1" (by decide)
  exact ⟨by decide, by decide, by decide, h.1, h.2⟩

-- ==========================================
-- String containment helpers (C8)
-- ==========================================

theorem str_append_assoc (a b c : String) : (a ++ b) ++ c = a ++ (b ++ c) :=
  String.ext (by simp [String.data_append, List.append_assoc])

theorem containsStr_self_right (x r : String) : containsStr (x ++ r) x :=
  ⟨"", r, String.ext (by simp [String.data_append])⟩

theorem containsStr_append_left (a m n : String) (h : containsStr m n) :
    containsStr (a ++ m) n := by
  obtain ⟨l, r, he⟩ := h
  exact ⟨a ++ l, r, by rw [he, str_append_assoc]⟩

theorem containsStr_joinStrs (l : List String) (x : String) (hx : x ∈ l) :
    containsStr (joinStrs l) x := by
  induction l with
  | nil => cases hx
  | cons a rest ih =>
      cases rest with
      | nil =>
          have : x = a := by
            cases List.mem_cons.mp hx with
            | inl h => exact h
            | inr h => cases h
          subst this
          exact ⟨"", "", String.ext (by simp [joinStrs, String.data_append])⟩
      | cons b rest' =>
          cases List.mem_cons.mp hx with
          | inl h =>
              subst h
              rw [show joinStrs (x :: b :: rest') = x ++ (", " ++ joinStrs (b :: rest'))
                from by rw [joinStrs, str_append_assoc]]
              exact ⟨"", ", " ++ joinStrs (b :: rest'),
                by rw [show ("" : String) ++ (x ++ (", " ++ joinStrs (b :: rest'))) =
                  x ++ (", " ++ joinStrs (b :: rest')) from
                  String.ext (by simp [String.data_append])]⟩
          | inr h =>
              have hc := ih h
              rw [show joinStrs (a :: b :: rest') = (a ++ ", ") ++ joinStrs (b :: rest')
                from by rw [joinStrs, str_append_assoc]]
              exact containsStr_append_left _ _ _ hc

theorem find?_append_first {α : Type} (p : α → Bool) (pre : List α) (s : α)
    (post : List α) (hpre : ∀ x ∈ pre, p x = false) (hs : p s = true) :
    (pre ++ s :: post).find? p = some s := by
  induction pre with
  | nil => simp [List.find?_cons_of_pos, hs]
  | cons a rest ih =>
      have ha : p a = false := hpre a (by simp)
      rw [List.cons_append, List.find?_cons_of_neg _ (by simp [ha])]
      exact ih (fun x hx => hpre x (by simp [hx]))

/-- C8: name-based destination lookup.  Each resolver returns the id of
the first case-insensitive match among the fetched children; with no
match it fails with a message that contains every sibling name; and a
resolution failure aborts the whole deployment inside the top-level
catch, before any task-creation call. -/
theorem C8_name_resolution :
    (∀ (pre : List Entity) (s : Entity) (post : List Entity) (nm : String),
      (∀ x ∈ pre, ciMatch nm x = false) → ciMatch nm s = true →
      resolveSpaceId (pre ++ s :: post) nm = .ok s.id) ∧
    (∀ (spaces : List Entity) (nm : String),
      (∀ x ∈ spaces, ciMatch nm x = false) →
      ∃ m, resolveSpaceId spaces nm = .error m ∧
        ∀ x ∈ spaces, containsStr m x.name) ∧
    (∀ (pre : List Entity) (s : Entity) (post : List Entity) (nm : String),
      (∀ x ∈ pre, ciMatch nm x = false) → ciMatch nm s = true →
      resolveFolderId (pre ++ s :: post) nm = .ok s.id) ∧
    (∀ (folders : List Entity) (nm : String),
      (∀ x ∈ folders, ciMatch nm x = false) →
      ∃ m, resolveFolderId folders nm = .error m ∧
        ∀ x ∈ folders, containsStr m x.name) ∧
    (∀ (pre : List Entity) (s : Entity) (post : List Entity) (pt nm : String),
      (∀ x ∈ pre, ciMatch nm x = false) → ciMatch nm s = true →
      resolveListId (pre ++ s :: post) pt nm = .ok s.id) ∧
    (∀ (lists : List Entity) (pt nm : String),
      (∀ x ∈ lists, ciMatch nm x = false) →
      ∃ m, resolveListId lists pt nm = .error m ∧
        ∀ x ∈ lists, containsStr m x.name) ∧
    (∀ (tpl : TemplateSchema) (opts : Options) (env : Env) (u : String)
        (t1 : TemplateSchema) (e : Err),
      env.user = .ok u → resolveDestination env tpl = (t1, some e) →
      (deployTemplateSmartly tpl opts env).exit = .caught ∧
      (deployTemplateSmartly tpl opts env).st.result.success = false ∧
      (deployTemplateSmartly tpl opts env).st.result.message = e.msg ∧
      (deployTemplateSmartly tpl opts env).st.result.errors = [e.msg] ∧
      (deployTemplateSmartly tpl opts env).st.result.phases = [] ∧
      (deployTemplateSmartly tpl opts env).st.createCalls = []) := by
  have hfindnone : ∀ (l : List Entity) (nm : String),
      (∀ x ∈ l, ciMatch nm x = false) → l.find? (ciMatch nm) = none := by
    intro l nm hall
    exact List.find?_eq_none.mpr (fun a ha => by rw [hall a ha]; simp)
  have hjoin : ∀ (l : List Entity) (x : Entity), x ∈ l →
      containsStr (joinNames l) x.name := by
    intro l x hx
    exact containsStr_joinStrs _ _ (List.mem_map_of_mem _ hx)
  refine ⟨?_, ?_, ?_, ?_, ?_, ?_, ?_⟩
  · intro pre s post nm hpre hs
    unfold resolveSpaceId
    rw [find?_append_first _ pre s post hpre hs]
  · intro spaces nm hall
    refine ⟨"Failed to find space \"" ++ nm ++ "\": " ++
      ("Space \"" ++ nm ++ "\" not found. Available spaces: " ++
        joinNames spaces), ?_, ?_⟩
    · unfold resolveSpaceId
      rw [hfindnone spaces nm hall]
    · intro x hx
      exact containsStr_append_left _ _ _
        (containsStr_append_left _ _ _ (hjoin spaces x hx))
  · intro pre s post nm hpre hs
    unfold resolveFolderId
    rw [find?_append_first _ pre s post hpre hs]
  · intro folders nm hall
    refine ⟨"Failed to find folder \"" ++ nm ++ "\": " ++
      ("Folder \"" ++ nm ++ "\" not found in space. Available folders: " ++
        joinNames folders), ?_, ?_⟩
    · unfold resolveFolderId
      rw [hfindnone folders nm hall]
    · intro x hx
      exact containsStr_append_left _ _ _
        (containsStr_append_left _ _ _ (hjoin folders x hx))
  · intro pre s post pt nm hpre hs
    unfold resolveListId
    rw [find?_append_first _ pre s post hpre hs]
  · intro lists pt nm hall
    refine ⟨"Failed to find list \"" ++ nm ++ "\": " ++
      ("List \"" ++ nm ++ "\" not found in " ++ pt ++
        ". Available lists: " ++ joinNames lists), ?_, ?_⟩
    · unfold resolveListId
      rw [hfindnone lists nm hall]
    · intro x hx
      exact containsStr_append_left _ _ _
        (containsStr_append_left _ _ _ (hjoin lists x hx))
  · intro tpl opts env u t1 e hu hr
    unfold deployTemplateSmartly
    rw [hu]
    dsimp only
    rw [hr]
    dsimp only
    have hT := topCatch_spec env opts e t1 initSt
    refine ⟨hT.1, hT.2.2.1, hT.2.2.2.1, ?_, hT.2.2.2.2.2.1, hT.2.2.2.2.2.2.2.2.2⟩
    rw [hT.2.2.2.2.1]
    rfl

/-- C8 witness: space "Gamma" against spaces [Alpha, Beta]: not-found
error listing both names; the failed run creates nothing; and the
first-match semantics at a concrete listing. -/
theorem C8_witness :
    (∃ m, resolveSpaceId envDirs.spaces "Gamma" = .error m ∧
      containsStr m "Alpha" ∧ containsStr m "Beta") ∧
    resolveSpaceId envDirs.spaces "beta" = .ok "s2" ∧
    (deployTemplateSmartly tplBadSpace optsPlain envDirs).exit = .caught ∧
    (deployTemplateSmartly tplBadSpace optsPlain envDirs).st.result.success = false ∧
    (deployTemplateSmartly tplBadSpace optsPlain envDirs).st.createCalls = [] := by
  have h2 := C8_name_resolution.2.1 envDirs.spaces "Gamma" (by decide)
  have h1 := C8_name_resolution.1 [⟨"s1", "Alpha"⟩] ⟨"s2", "Beta"⟩ [] "beta"
    (by decide) (by decide)
  have h7 := (C8_name_resolution.2.2.2.2.2.2) tplBadSpace optsPlain envDirs
    "alice" tplBadSpace
    ⟨false, "Failed to resolve space name \"Gamma\": Failed to find space \"Gamma\": Space \"Gamma\" not found. Available spaces: Alpha, Beta"⟩
    rfl rfl
  refine ⟨?_, ?_, h7.1, h7.2.1, h7.2.2.2.2.2⟩
  · obtain ⟨m, hm, hall⟩ := h2
    exact ⟨m, hm, hall ⟨"s1", "Alpha"⟩ (by decide), hall ⟨"s2", "Beta"⟩ (by decide)⟩
  · exact h1

-- ==========================================
-- Destination write-back lemmas (C10)
-- ==========================================

theorem resolveSpaceStep_id_some (env : Env) (tpl : TemplateSchema) (s : String)
    (hi : tpl.destination.space_id = some s) :
    (resolveSpaceStep env tpl).1.destination.space_id = some s := by
  cases hsn : tpl.destination.space_name <;> simp [resolveSpaceStep, hsn, hi]

theorem resolveSpaceStep_writes (env : Env) (tpl : TemplateSchema) (nm : String)
    (hn : tpl.destination.space_name = some nm)
    (hi : tpl.destination.space_id = none)
    (ho : (resolveSpaceStep env tpl).2 = none) :
    ∃ i, resolveSpaceId env.spaces nm = .ok i ∧
      (resolveSpaceStep env tpl).1.destination.space_id = some i := by
  cases ht : env.teams with
  | nil => simp [resolveSpaceStep, hn, hi, ht] at ho
  | cons t ts =>
      cases hres : resolveSpaceId env.spaces nm with
      | ok i => exact ⟨i, rfl, by simp [resolveSpaceStep, hn, hi, ht, hres]⟩
      | error m => simp [resolveSpaceStep, hn, hi, ht, hres] at ho

theorem resolveFolderStep_id_some (env : Env) (tpl : TemplateSchema) (f : String)
    (hi : tpl.destination.folder_id = some f) :
    (resolveFolderStep env tpl).1.destination.folder_id = some f := by
  cases hfn : tpl.destination.folder_name <;> simp [resolveFolderStep, hfn, hi]

theorem resolveFolderStep_writes (env : Env) (tpl : TemplateSchema) (nm : String)
    (hn : tpl.destination.folder_name = some nm)
    (hi : tpl.destination.folder_id = none)
    (ho : (resolveFolderStep env tpl).2 = none) :
    ∃ sid i, tpl.destination.space_id = some sid ∧
      resolveFolderId (env.foldersOf sid) nm = .ok i ∧
      (resolveFolderStep env tpl).1.destination.folder_id = some i := by
  cases hsid : tpl.destination.space_id with
  | none => simp [resolveFolderStep, hn, hi, hsid] at ho
  | some sid =>
      cases hres : resolveFolderId (env.foldersOf sid) nm with
      | ok i =>
          exact ⟨sid, i, rfl, hres, by simp [resolveFolderStep, hn, hi, hsid, hres]⟩
      | error m => simp [resolveFolderStep, hn, hi, hsid, hres] at ho

theorem resolveListStep_id_some (env : Env) (tpl : TemplateSchema) (l : String)
    (hi : tpl.destination.list_id = some l) :
    (resolveListStep env tpl).1.destination.list_id = some l := by
  cases hln : tpl.destination.list_name <;> simp [resolveListStep, hln, hi]

theorem resolveListStep_writes (env : Env) (tpl : TemplateSchema) (nm : String)
    (hn : tpl.destination.list_name = some nm)
    (hi : tpl.destination.list_id = none)
    (ho : (resolveListStep env tpl).2 = none) :
    (resolveListStep env tpl).1.destination.list_id.isSome := by
  cases hfid : tpl.destination.folder_id with
  | some fid =>
      cases hres : resolveListId (env.folderListsOf fid) "folder" nm with
      | ok i => simp [resolveListStep, hn, hi, hfid, hres]
      | error m => simp [resolveListStep, hn, hi, hfid, hres] at ho
  | none =>
      cases hsid : tpl.destination.space_id with
      | none => simp [resolveListStep, hn, hi, hfid, hsid] at ho
      | some sid =>
          cases hres : resolveListId (env.spaceListsOf sid) "space" nm with
          | ok i => simp [resolveListStep, hn, hi, hfid, hsid, hres]
          | error m => simp [resolveListStep, hn, hi, hfid, hsid, hres] at ho

theorem runPhasesAndFinalize_template (env : Env) (opts : Options)
    (fm : List (String × String)) (tpl : TemplateSchema) (st : St) :
    (runPhasesAndFinalize env opts fm tpl st).template = tpl := by
  unfold runPhasesAndFinalize
  rcases h : deployPhases env opts fm (defaultsCFOf tpl) tpl.phases st with ⟨st1, o⟩
  cases o with
  | some e => exact (topCatch_spec env opts e tpl st1).2.1
  | none => rfl

theorem fieldStage_template (env : Env) (opts : Options) (tpl : TemplateSchema)
    (lid : String) (st : St) :
    (fieldStageAndDeploy env opts tpl lid st).template = tpl := by
  unfold fieldStageAndDeploy
  by_cases h1 : (validateCustomFields (env.fieldsOf lid) tpl).missingFields.isEmpty
  · simp only [h1, if_true]
    exact runPhasesAndFinalize_template _ _ _ _ _
  · simp only [h1, Bool.false_eq_true, if_false]
    by_cases h2 : opts.stopOnMissingFields
    · simp only [h2, if_true]
      exact (stopOnMissing_spec _ _ _).2.1
    · simp only [h2, Bool.false_eq_true, if_false]
      exact runPhasesAndFinalize_template _ _ _ _ _

/-- C10: when name resolution succeeds, the resolved ids are written back
into the caller's template document (`deployTemplateSmartly` hands back
the mutated document): a destination name supplied without its id gets
the id of the resolver's match filled in, ids that were already present
are preserved, and every other template field (meta, defaults, phases,
the three destination names) is left unchanged. -/
theorem C10_template_mutation (tpl : TemplateSchema) (opts : Options)
    (env : Env) (u : String) (t1 : TemplateSchema)
    (hu : env.user = .ok u)
    (hr : resolveDestination env tpl = (t1, none)) :
    (deployTemplateSmartly tpl opts env).template = t1 ∧
    t1.meta = tpl.meta ∧ t1.defaults = tpl.defaults ∧ t1.phases = tpl.phases ∧
    t1.destination.space_name = tpl.destination.space_name ∧
    t1.destination.folder_name = tpl.destination.folder_name ∧
    t1.destination.list_name = tpl.destination.list_name ∧
    (∀ nm, tpl.destination.space_name = some nm →
      tpl.destination.space_id = none →
      ∃ i, resolveSpaceId env.spaces nm = .ok i ∧
        t1.destination.space_id = some i) ∧
    (∀ s, tpl.destination.space_id = some s →
      t1.destination.space_id = some s) ∧
    (∀ nm, tpl.destination.folder_name = some nm →
      tpl.destination.folder_id = none →
      ∃ sid i, t1.destination.space_id = some sid ∧
        resolveFolderId (env.foldersOf sid) nm = .ok i ∧
        t1.destination.folder_id = some i) ∧
    (∀ f, tpl.destination.folder_id = some f →
      t1.destination.folder_id = some f) ∧
    (∀ nm, tpl.destination.list_name = some nm →
      tpl.destination.list_id = none →
      t1.destination.list_id.isSome) ∧
    (∀ l, tpl.destination.list_id = some l →
      t1.destination.list_id = some l) := by
  -- decompose the resolution chain
  rcases hs : resolveSpaceStep env tpl with ⟨ta, oa⟩
  have f1 := resolveSpaceStep_frame env tpl
  rw [hs] at f1
  unfold resolveDestination at hr
  rw [hs] at hr
  cases oa with
  | some e => simp at hr
  | none =>
  dsimp only at hr
  rcases hf : resolveFolderStep env ta with ⟨tb, ob⟩
  have f2 := resolveFolderStep_frame env ta
  rw [hf] at f2
  rw [hf] at hr
  cases ob with
  | some e => simp at hr
  | none =>
  dsimp only at hr
  have f3 := resolveListStep_frame env tb
  rw [hr] at f3
  have ht1 : (resolveListStep env tb).1 = t1 := by rw [hr]
  -- frame chain
  have hmeta : t1.meta = tpl.meta := (f3.1).trans ((f2.1).trans f1.1)
  have hdef : t1.defaults = tpl.defaults := (f3.2.1).trans ((f2.2.1).trans f1.2.1)
  have hph : t1.phases = tpl.phases := (f3.2.2.1).trans ((f2.2.2.1).trans f1.2.2.1)
  have hsn : t1.destination.space_name = tpl.destination.space_name :=
    (f3.2.2.2.1).trans ((f2.2.2.2.1).trans f1.2.2.2.1)
  have hfn : t1.destination.folder_name = tpl.destination.folder_name :=
    (f3.2.2.2.2.1).trans ((f2.2.2.2.2.1).trans f1.2.2.2.2.1)
  have hln : t1.destination.list_name = tpl.destination.list_name :=
    (f3.2.2.2.2.2.1).trans ((f2.2.2.2.2.2.1).trans f1.2.2.2.2.2.1)
  have hsid_chain : t1.destination.space_id = ta.destination.space_id :=
    (f3.2.2.2.2.2.2.1).trans f2.2.2.2.2.2.2.1
  have hfid_chain : t1.destination.folder_id = tb.destination.folder_id :=
    f3.2.2.2.2.2.2.2
  refine ⟨?_, hmeta, hdef, hph, hsn, hfn, hln, ?_, ?_, ?_, ?_, ?_, ?_⟩
  · -- deploy returns the threaded template
    unfold deployTemplateSmartly
    rw [hu]
    dsimp only
    rw [show resolveDestination env tpl = (t1, none) from by
      unfold resolveDestination
      rw [hs]
      dsimp only
      rw [hf]
      dsimp only
      exact hr]
    dsimp only
    rcases ht : determineTarget env opts t1 with e | ⟨lid, mode, warns⟩
    · exact (topCatch_spec env opts e t1 initSt).2.1
    · exact fieldStage_template _ _ _ _ _
  · -- space id written back
    intro nm hn hi
    obtain ⟨i, hres, hw⟩ := resolveSpaceStep_writes env tpl nm hn hi
      (by rw [hs])
    rw [hs] at hw
    exact ⟨i, hres, by rw [hsid_chain, hw]⟩
  · -- space id preserved
    intro s hsome
    have := resolveSpaceStep_id_some env tpl s hsome
    rw [hs] at this
    rw [hsid_chain, this]
  · -- folder id written back
    intro nm hn hi
    have hn' : ta.destination.folder_name = some nm := by
      rw [f1.2.2.2.2.1, hn]
    have hi' : ta.destination.folder_id = none := by
      rw [f1.2.2.2.2.2.2.1, hi]
    obtain ⟨sid, i, hsid, hres, hw⟩ := resolveFolderStep_writes env ta nm hn' hi'
      (by rw [hf])
    rw [hf] at hw
    refine ⟨sid, i, ?_, hres, by rw [hfid_chain]; exact hw⟩
    rw [hsid_chain, hsid]
  · -- folder id preserved
    intro f hsome
    have hf' : ta.destination.folder_id = some f := by
      rw [f1.2.2.2.2.2.2.1, hsome]
    have := resolveFolderStep_id_some env ta f hf'
    rw [hf] at this
    rw [hfid_chain, this]
  · -- list id written back
    intro nm hn hi
    have hn' : tb.destination.list_name = some nm := by
      rw [f2.2.2.2.2.2.1, f1.2.2.2.2.2.1, hn]
    have hi' : tb.destination.list_id = none := by
      rw [f2.2.2.2.2.2.2.2, f1.2.2.2.2.2.2.2, hi]
    have := resolveListStep_writes env tb nm hn' hi' (by rw [hr])
    rw [ht1] at this
    exact this
  · -- list id preserved
    intro l hsome
    have hb : tb.destination.list_id = some l := by
      rw [f2.2.2.2.2.2.2.2, f1.2.2.2.2.2.2.2, hsome]
    have := resolveListStep_id_some env tb l hb
    rw [ht1] at this
    exact this

/-- C10 witness: a destination given purely by names gets all three ids
written back into the returned template document, with the names and
phases untouched. -/
theorem C10_witness :
    resolveDestination envDirs tplNames =
      ({ tplNames with destination :=
          ⟨some "s1", some "alpha", some "f1", some "docs",
            some "l1", some "tasks"⟩ }, none) ∧
    (deployTemplateSmartly tplNames optsPlain envDirs).template.destination.space_id =
      some "s1" ∧
    (deployTemplateSmartly tplNames optsPlain envDirs).template.destination.folder_id =
      some "f1" ∧
    (deployTemplateSmartly tplNames optsPlain envDirs).template.destination.list_id =
      some "l1" ∧
    (deployTemplateSmartly tplNames optsPlain envDirs).template.phases =
      tplNames.phases := by
  have h := C10_template_mutation tplNames optsPlain envDirs "alice"
    { tplNames with destination :=
        ⟨some "s1", some "alpha", some "f1", some "docs",
          some "l1", some "tasks"⟩ }
    rfl rfl
  refine ⟨rfl, ?_, ?_, ?_, ?_⟩
  · rw [h.1]
  · rw [h.1]
  · rw [h.1]
  · rw [h.1]

-- ==========================================
-- Frame lemmas for the loop state operations (C5, C6)
-- ==========================================

@[simp] theorem St.pushError_createCalls (st : St) (m : String) :
    (st.pushError m).createCalls = st.createCalls := rfl

@[simp] theorem St.pushError_errors (st : St) (m : String) :
    (st.pushError m).result.errors = st.result.errors ++ [m] := rfl

@[simp] theorem St.recordAction_createCalls (st : St) (t : RemoteTask) :
    (st.recordAction t).createCalls = st.createCalls := rfl

@[simp] theorem St.recordAction_errors (st : St) (t : RemoteTask) :
    (st.recordAction t).result.errors = st.result.errors := rfl

@[simp] theorem St.recordPhase_createCalls (st : St) (t : RemoteTask) :
    (st.recordPhase t).createCalls = st.createCalls := rfl

@[simp] theorem St.recordPhase_errors (st : St) (t : RemoteTask) :
    (st.recordPhase t).result.errors = st.result.errors := rfl

@[simp] theorem St.recordChecklist_createCalls (st : St) (id : String) :
    (st.recordChecklist id).createCalls = st.createCalls := rfl

@[simp] theorem St.recordChecklist_errors (st : St) (id : String) :
    (st.recordChecklist id).result.errors = st.result.errors := rfl

theorem createTask_ok (env : Env) (level : Level) (payload : TaskPayload)
    (st : St) (id : String)
    (h : env.createOutcomes st.createCalls.length = .ok id) :
    createTask env level payload st =
      ({ st with createCalls := st.createCalls ++ [⟨level, payload, .ok id⟩] },
        .ok ⟨id, payload.name, payload.parent⟩) := by
  unfold createTask
  rw [h]

theorem createTask_err (env : Env) (level : Level) (payload : TaskPayload)
    (st : St) (b : Bool) (m : String)
    (h : env.createOutcomes st.createCalls.length = .err b m) :
    createTask env level payload st =
      ({ st with createCalls := st.createCalls ++ [⟨level, payload, .err b m⟩] },
        .error ⟨b, m⟩) := by
  unfold createTask
  rw [h]

theorem createChecklist_ok (env : Env) (taskId : String) (st : St) (id : String)
    (h : env.checklistOutcomes st.checklistCalls.length = .ok id) :
    createChecklist env taskId st =
      ({ st with checklistCalls := st.checklistCalls ++ [(taskId, .ok id)] },
        .ok id) := by
  unfold createChecklist
  rw [h]

theorem createChecklist_err (env : Env) (taskId : String) (st : St)
    (b : Bool) (m : String)
    (h : env.checklistOutcomes st.checklistCalls.length = .err b m) :
    createChecklist env taskId st =
      ({ st with checklistCalls := st.checklistCalls ++ [(taskId, .err b m)] },
        .error ⟨b, m⟩) := by
  unfold createChecklist
  rw [h]

theorem deploySubActions_spec (env : Env) (opts : Options)
    (fm : List (String × String)) (aid : String) (subs : List ActionT) :
    ∀ st : St, ∃ L E,
      (deploySubActions env opts fm aid subs st).createCalls =
        st.createCalls ++ L ∧
      (∀ c ∈ L, c.level = Level.sub ∧ c.payload.parent = some aid) ∧
      (deploySubActions env opts fm aid subs st).result.errors =
        st.result.errors ++ E := by
  induction subs with
  | nil =>
      intro st
      exact ⟨[], [], by simp [deploySubActions], by simp, by simp [deploySubActions]⟩
  | cons sa rest ih =>
      intro st
      simp only [deploySubActions]
      cases hco : env.createOutcomes st.createCalls.length with
      | err b m =>
          rw [createTask_err env Level.sub
            ⟨sa.name, some aid, formatCustomFields sa.custom_fields fm⟩ st b m hco]
          dsimp only
          obtain ⟨L, E, h1, h2, h3⟩ := ih _
          refine ⟨⟨Level.sub, ⟨sa.name, some aid, formatCustomFields sa.custom_fields fm⟩,
              .err b m⟩ :: L,
            ("Failed to create nested subtask \"" ++ sa.name ++ "\": " ++
              Err.display ⟨b, m⟩) :: E, ?_, ?_, ?_⟩
          · rw [h1]; simp
          · intro c hc
            cases List.mem_cons.mp hc with
            | inl h => subst h; exact ⟨rfl, rfl⟩
            | inr h => exact h2 c h
          · rw [h3]; simp
      | ok id =>
          rw [createTask_ok env Level.sub
            ⟨sa.name, some aid, formatCustomFields sa.custom_fields fm⟩ st id hco]
          dsimp only
          cases hcl : sa.checklist with
          | none =>
              obtain ⟨L, E, h1, h2, h3⟩ := ih _
              refine ⟨⟨Level.sub, ⟨sa.name, some aid,
                  formatCustomFields sa.custom_fields fm⟩, .ok id⟩ :: L, E, ?_, ?_, ?_⟩
              · rw [h1]; simp
              · intro c hc
                cases List.mem_cons.mp hc with
                | inl h => subst h; exact ⟨rfl, rfl⟩
                | inr h => exact h2 c h
              · rw [h3]; simp
          | some cl =>
              by_cases hit : cl.items.length > 0
              · simp only [hit, if_true]
                cases hch : env.checklistOutcomes
                    ((St.recordAction { st with createCalls := st.createCalls ++
                      [⟨Level.sub, ⟨sa.name, some aid,
                        formatCustomFields sa.custom_fields fm⟩, .ok id⟩] }
                      ⟨id, sa.name, some aid⟩).checklistCalls.length) with
                | ok cid =>
                    rw [createChecklist_ok env id _ cid hch]
                    dsimp only
                    obtain ⟨L, E, h1, h2, h3⟩ := ih _
                    refine ⟨⟨Level.sub, ⟨sa.name, some aid,
                        formatCustomFields sa.custom_fields fm⟩, .ok id⟩ :: L, E,
                      ?_, ?_, ?_⟩
                    · rw [h1]; simp [St.recordChecklist, St.recordAction]
                    · intro c hc
                      cases List.mem_cons.mp hc with
                      | inl h => subst h; exact ⟨rfl, rfl⟩
                      | inr h => exact h2 c h
                    · rw [h3]; simp [St.recordChecklist, St.recordAction]
                | err b m =>
                    rw [createChecklist_err env id _ b m hch]
                    dsimp only
                    obtain ⟨L, E, h1, h2, h3⟩ := ih _
                    refine ⟨⟨Level.sub, ⟨sa.name, some aid,
                        formatCustomFields sa.custom_fields fm⟩, .ok id⟩ :: L,
                      ("Failed to create nested subtask \"" ++ sa.name ++ "\": " ++
                        Err.display ⟨b, m⟩) :: E, ?_, ?_, ?_⟩
                    · rw [h1]; simp [St.pushError, St.recordAction]
                    · intro c hc
                      cases List.mem_cons.mp hc with
                      | inl h => subst h; exact ⟨rfl, rfl⟩
                      | inr h => exact h2 c h
                    · rw [h3]; simp [St.pushError, St.recordAction]
              · simp only [hit, if_false]
                obtain ⟨L, E, h1, h2, h3⟩ := ih _
                refine ⟨⟨Level.sub, ⟨sa.name, some aid,
                    formatCustomFields sa.custom_fields fm⟩, .ok id⟩ :: L, E, ?_, ?_, ?_⟩
                · rw [h1]; simp
                · intro c hc
                  cases List.mem_cons.mp hc with
                  | inl h => subst h; exact ⟨rfl, rfl⟩
                  | inr h => exact h2 c h
                · rw [h3]; simp

theorem processAction_spec (env : Env) (opts : Options)
    (fm : List (String × String)) (pid : String) (a : ActionT) (st : St) :
    ∃ L E,
      (processAction env opts fm pid a st).1.createCalls =
        st.createCalls ++
          ⟨Level.action, ⟨a.name, some pid, formatCustomFields a.custom_fields fm⟩,
            env.createOutcomes st.createCalls.length⟩ :: L ∧
      (∀ c ∈ L, c.level = Level.sub ∧
        ∃ aid, env.createOutcomes st.createCalls.length = .ok aid ∧
          c.payload.parent = some aid) ∧
      (processAction env opts fm pid a st).1.result.errors =
        st.result.errors ++ E ∧
      (∀ b m, env.createOutcomes st.createCalls.length = .err b m →
        ("Failed to create action \"" ++ a.name ++ "\": " ++ Err.display ⟨b, m⟩) ∈
          (processAction env opts fm pid a st).1.result.errors) ∧
      (opts.enableRollback = false → (processAction env opts fm pid a st).2 = none) ∧
      (opts.enableRollback = true → ∀ b m,
        env.createOutcomes st.createCalls.length = .err b m →
        (processAction env opts fm pid a st).2 = some ⟨b, m⟩) := by
  unfold processAction
  cases hco : env.createOutcomes st.createCalls.length with
  | err b m =>
      rw [createTask_err env Level.action
        ⟨a.name, some pid, formatCustomFields a.custom_fields fm⟩ st b m hco]
      dsimp only
      unfold handleActionFailure
      by_cases hrb : opts.enableRollback = true
      · rw [if_pos hrb]
        refine ⟨[], ["Failed to create action \"" ++ a.name ++ "\": " ++
          Err.display ⟨b, m⟩], ?_, by simp, ?_, ?_, ?_, ?_⟩
        · simp [rollback_frame]
        · simp [rollback_frame, St.pushError]
        · intro b' m' h
          injection h with hb hm
          subst hb
          subst hm
          simp [rollback_frame, St.pushError]
        · intro h
          exact absurd (h.symm.trans hrb) (by decide)
        · intro _ b' m' h
          injection h with hb hm
          subst hb
          subst hm
          rfl
      · rw [if_neg hrb]
        refine ⟨[], ["Failed to create action \"" ++ a.name ++ "\": " ++
          Err.display ⟨b, m⟩], ?_, by simp, ?_, ?_, ?_, ?_⟩
        · simp
        · simp [St.pushError]
        · intro b' m' h
          injection h with hb hm
          subst hb
          subst hm
          simp [St.pushError]
        · intro h; rfl
        · intro h
          exact absurd h hrb
  | ok id =>
      rw [createTask_ok env Level.action
        ⟨a.name, some pid, formatCustomFields a.custom_fields fm⟩ st id hco]
      dsimp only
      obtain ⟨L0, E0, hs1, hs2, hs3⟩ := deploySubActions_spec env opts fm id a.actions
        (St.recordAction { st with createCalls := st.createCalls ++
          [⟨Level.action, ⟨a.name, some pid, formatCustomFields a.custom_fields fm⟩,
            .ok id⟩] } ⟨id, a.name, some pid⟩)
      have hsub : ∀ c ∈ L0, c.level = Level.sub ∧
          ∃ aid, CreateOutcome.ok id = CreateOutcome.ok aid ∧
            c.payload.parent = some aid := by
        intro c hc
        exact ⟨(hs2 c hc).1, id, rfl, (hs2 c hc).2⟩
      cases hcl : a.checklist with
      | none =>
          refine ⟨L0, E0, ?_, hsub, ?_, ?_, fun _ => rfl, ?_⟩
          · rw [hs1]; simp
          · rw [hs3]; simp
          · intro b m h; cases h
          · intro _ b m h; cases h
      | some cl =>
          by_cases hit : cl.items.length > 0
          · simp only [hit, if_true]
            cases hch : env.checklistOutcomes
                (deploySubActions env opts fm id a.actions
                  (St.recordAction { st with createCalls := st.createCalls ++
                    [⟨Level.action, ⟨a.name, some pid,
                      formatCustomFields a.custom_fields fm⟩, .ok id⟩] }
                    ⟨id, a.name, some pid⟩)).checklistCalls.length with
            | ok cid =>
                rw [createChecklist_ok env id _ cid hch]
                dsimp only
                refine ⟨L0, E0, ?_, hsub, ?_, ?_, fun _ => rfl, ?_⟩
                · rw [St.recordChecklist_createCalls, hs1]; simp
                · rw [St.recordChecklist_errors, hs3]; simp
                · intro b m h; cases h
                · intro _ b m h; cases h
            | err b m =>
                rw [createChecklist_err env id _ b m hch]
                dsimp only
                unfold handleActionFailure
                by_cases hrb : opts.enableRollback = true
                · rw [if_pos hrb]
                  refine ⟨L0, E0 ++ ["Failed to create action \"" ++ a.name ++
                    "\": " ++ Err.display ⟨b, m⟩], ?_, hsub, ?_, ?_, ?_, ?_⟩
                  · simp only [rollback_frame, St.pushError_createCalls]
                    rw [hs1]
                    simp
                  · simp only [rollback_frame, St.pushError_errors]
                    rw [hs3]
                    simp
                  · intro b' m' h; cases h
                  · intro h
                    exact absurd (h.symm.trans hrb) (by decide)
                  · intro _ b' m' h; cases h
                · rw [if_neg hrb]
                  refine ⟨L0, E0 ++ ["Failed to create action \"" ++ a.name ++
                    "\": " ++ Err.display ⟨b, m⟩], ?_, hsub, ?_, ?_, ?_, ?_⟩
                  · simp only [St.pushError_createCalls]
                    rw [hs1]
                    simp
                  · simp only [St.pushError_errors]
                    rw [hs3]
                    simp
                  · intro b' m' h; cases h
                  · intro h; rfl
                  · intro h
                    exact absurd h hrb
          · dsimp only
            rw [if_neg hit]
            refine ⟨L0, E0, ?_, hsub, ?_, ?_, fun _ => rfl, ?_⟩
            · rw [hs1]; simp
            · rw [hs3]; simp
            · intro b m h; cases h
            · intro _ b m h; cases h

theorem deployActions_spec (env : Env) (opts : Options)
    (fm : List (String × String)) (pid : String) (actions : List ActionT) :
    ∀ st : St, ∃ L E,
      (deployActions env opts fm pid actions st).1.createCalls =
        st.createCalls ++ L ∧
      (deployActions env opts fm pid actions st).1.result.errors =
        st.result.errors ++ E ∧
      (∀ c ∈ L, (c.level = Level.action ∨ c.level = Level.sub) ∧
        (c.level = Level.action → c.payload.parent = some pid)) ∧
      (opts.enableRollback = false →
        (deployActions env opts fm pid actions st).2 = none ∧
        (L.filter (fun c => c.level == Level.action)).map
          (fun c => c.payload.name) = actions.map ActionT.name) ∧
      (∀ c ∈ L, c.level = Level.action → ∀ b m, c.outcome = .err b m →
        ("Failed to create action \"" ++ c.payload.name ++ "\": " ++
          Err.display ⟨b, m⟩) ∈
          (deployActions env opts fm pid actions st).1.result.errors) := by
  induction actions with
  | nil =>
      intro st
      refine ⟨[], [], by simp [deployActions], by simp [deployActions], ?_, ?_, ?_⟩
      · intro c hc; cases hc
      · intro _; exact ⟨rfl, rfl⟩
      · intro c hc; cases hc
  | cons a rest ih =>
      intro st
      obtain ⟨L0, E0, hp1, hp2, hp3, hp4, hp5, hp6⟩ :=
        processAction_spec env opts fm pid a st
      simp only [deployActions]
      rcases hpa : processAction env opts fm pid a st with ⟨st', o⟩
      have hfst : (processAction env opts fm pid a st).1 = st' := by rw [hpa]
      have hsnd : (processAction env opts fm pid a st).2 = o := by rw [hpa]
      rw [hfst] at hp1 hp3 hp4
      rw [hsnd] at hp5 hp6
      cases o with
      | some e =>
          refine ⟨⟨Level.action,
              ⟨a.name, some pid, formatCustomFields a.custom_fields fm⟩,
              env.createOutcomes st.createCalls.length⟩ :: L0, E0,
            hp1, hp3, ?_, ?_, ?_⟩
          · intro c hc
            cases List.mem_cons.mp hc with
            | inl h => subst h; exact ⟨Or.inl rfl, fun _ => rfl⟩
            | inr h =>
                refine ⟨Or.inr (hp2 c h).1, fun hlev => ?_⟩
                rw [(hp2 c h).1] at hlev
                cases hlev
          · intro h
            cases hp5 h
          · intro c hc hlev b m hout
            cases List.mem_cons.mp hc with
            | inl h =>
                subst h
                exact hp4 b m hout
            | inr h =>
                rw [(hp2 c h).1] at hlev
                cases hlev
      | none =>
          obtain ⟨L1, E1, hq1, hq2, hq3, hq4, hq5⟩ := ih st'
          have hL0 : L0.filter (fun c => c.level == Level.action) = [] := by
            rw [List.filter_eq_nil_iff]
            intro c hc
            rw [(hp2 c hc).1]
            decide
          refine ⟨⟨Level.action,
              ⟨a.name, some pid, formatCustomFields a.custom_fields fm⟩,
              env.createOutcomes st.createCalls.length⟩ :: (L0 ++ L1), E0 ++ E1,
            ?_, ?_, ?_, ?_, ?_⟩
          · rw [hq1, hp1]
            simp
          · rw [hq2, hp3]
            simp
          · intro c hc
            cases List.mem_cons.mp hc with
            | inl h => subst h; exact ⟨Or.inl rfl, fun _ => rfl⟩
            | inr h =>
                cases List.mem_append.mp h with
                | inl h0 =>
                    refine ⟨Or.inr (hp2 c h0).1, fun hlev => ?_⟩
                    rw [(hp2 c h0).1] at hlev
                    cases hlev
                | inr h1 => exact hq3 c h1
          · intro h
            refine ⟨(hq4 h).1, ?_⟩
            simp only [List.filter_cons, List.filter_append, hL0]
            simp [(hq4 h).2]
          · intro c hc hlev b m hout
            rw [hq2]
            cases List.mem_cons.mp hc with
            | inl h =>
                subst h
                exact List.mem_append_left _ (hp4 b m hout)
            | inr h =>
                cases List.mem_append.mp h with
                | inl h0 =>
                    rw [(hp2 c h0).1] at hlev
                    cases hlev
                | inr h1 =>
                    have := hq5 c h1 hlev b m hout
                    rw [hq2] at this
                    exact this

theorem processPhase_spec (env : Env) (opts : Options)
    (fm dcf : List (String × String)) (ph : Phase) (st : St) :
    ∃ L,
      (processPhase env opts fm dcf ph st).1.createCalls =
        st.createCalls ++
          ⟨Level.phase,
            ⟨ph.name, none, mergeAndFormatCustomFields dcf ph.custom_fields fm⟩,
            env.createOutcomes st.createCalls.length⟩ :: L ∧
      ∀ c ∈ L, (c.level = Level.action ∨ c.level = Level.sub) ∧
        (c.level = Level.action →
          ∃ pid, env.createOutcomes st.createCalls.length = .ok pid ∧
            c.payload.parent = some pid) := by
  unfold processPhase
  cases hco : env.createOutcomes st.createCalls.length with
  | err b m =>
      rw [createTask_err env Level.phase
        ⟨ph.name, none, mergeAndFormatCustomFields dcf ph.custom_fields fm⟩ st b m hco]
      dsimp only
      unfold handlePhaseFailure
      by_cases hrb : opts.enableRollback = true
      · rw [if_pos hrb]
        refine ⟨[], ?_, ?_⟩
        · simp [rollback_frame]
        · intro c hc; cases hc
      · rw [if_neg hrb]
        refine ⟨[], by simp, ?_⟩
        intro c hc; cases hc
  | ok pid =>
      rw [createTask_ok env Level.phase
        ⟨ph.name, none, mergeAndFormatCustomFields dcf ph.custom_fields fm⟩ st pid hco]
      dsimp only
      obtain ⟨L1, E1, hq1, hq2, hq3, hq4, hq5⟩ :=
        deployActions_spec env opts fm pid ph.actions
          (St.recordPhase { st with createCalls := st.createCalls ++
            [⟨Level.phase,
              ⟨ph.name, none, mergeAndFormatCustomFields dcf ph.custom_fields fm⟩,
              .ok pid⟩] } ⟨pid, ph.name, none⟩)
      rcases hda : deployActions env opts fm pid ph.actions
          (St.recordPhase { st with createCalls := st.createCalls ++
            [⟨Level.phase,
              ⟨ph.name, none, mergeAndFormatCustomFields dcf ph.custom_fields fm⟩,
              .ok pid⟩] } ⟨pid, ph.name, none⟩) with ⟨st3, o⟩
      have hfst : (deployActions env opts fm pid ph.actions
          (St.recordPhase { st with createCalls := st.createCalls ++
            [⟨Level.phase,
              ⟨ph.name, none, mergeAndFormatCustomFields dcf ph.custom_fields fm⟩,
              .ok pid⟩] } ⟨pid, ph.name, none⟩)).1 = st3 := by rw [hda]
      rw [hfst] at hq1
      have hmem : ∀ c ∈ L1, (c.level = Level.action ∨ c.level = Level.sub) ∧
          (c.level = Level.action →
            ∃ pid', CreateOutcome.ok pid = CreateOutcome.ok pid' ∧
              c.payload.parent = some pid') := by
        intro c hc
        exact ⟨(hq3 c hc).1, fun hlev => ⟨pid, rfl, (hq3 c hc).2 hlev⟩⟩
      cases o with
      | none =>
          dsimp only
          refine ⟨L1, ?_, hmem⟩
          rw [hq1]
          simp [St.recordPhase]
      | some e =>
          dsimp only
          unfold handlePhaseFailure
          by_cases hrb : opts.enableRollback = true
          · rw [if_pos hrb]
            refine ⟨L1, ?_, hmem⟩
            simp only [rollback_frame, St.pushError_createCalls]
            rw [hq1]
            simp [St.recordPhase]
          · rw [if_neg hrb]
            refine ⟨L1, ?_, hmem⟩
            simp only [St.pushError_createCalls]
            rw [hq1]
            simp [St.recordPhase]

/-- C5: with rollback disabled, the action loop never aborts, every
sibling action receives exactly one action-level creation attempt (in
declared order), and each failed action-level attempt is recorded as a
`Failed to create action` entry in `result.errors`; with rollback
enabled, a failed action creation aborts the loop immediately,
re-throwing the original error. -/
theorem C5_action_failure_handling :
    (∀ (env : Env) (opts : Options) (fm : List (String × String))
        (pid : String) (actions : List ActionT) (st : St),
      opts.enableRollback = false →
      (deployActions env opts fm pid actions st).2 = none ∧
      ∃ L, (deployActions env opts fm pid actions st).1.createCalls =
          st.createCalls ++ L ∧
        (L.filter (fun c => c.level == Level.action)).map
          (fun c => c.payload.name) = actions.map ActionT.name ∧
        (∀ c ∈ L, c.level = Level.action → ∀ b m, c.outcome = .err b m →
          ("Failed to create action \"" ++ c.payload.name ++ "\": " ++
            Err.display ⟨b, m⟩) ∈
            (deployActions env opts fm pid actions st).1.result.errors)) ∧
    (∀ (env : Env) (opts : Options) (fm : List (String × String))
        (pid : String) (a : ActionT) (st : St) (b : Bool) (m : String),
      opts.enableRollback = true →
      env.createOutcomes st.createCalls.length = .err b m →
      (processAction env opts fm pid a st).2 = some ⟨b, m⟩) := by
  constructor
  · intro env opts fm pid actions st h
    obtain ⟨L, E, h1, h2, h3, h4, h5⟩ := deployActions_spec env opts fm pid actions st
    exact ⟨(h4 h).1, L, h1, (h4 h).2, h5⟩
  · intro env opts fm pid a st b m hrb hco
    obtain ⟨L, E, h1, h2, h3, h4, h5, h6⟩ := processAction_spec env opts fm pid a st
    exact h6 hrb b m hco

/-- C5 witness: the 429-on-second-action scenario with rollback disabled
(the loop finishes, A1 and A3 are created, the A2 failure is in
`errors`, `success` stays true, no deletes), plus the rollback-enabled
abort at a concrete failing creation. -/
theorem C5_witness :
    optsPlain.enableRollback = false ∧
    ((deployActions env429 optsPlain [] "t0" phaseP3.actions initSt).2 = none ∧
      ∃ L, (deployActions env429 optsPlain [] "t0" phaseP3.actions initSt).1.createCalls =
          initSt.createCalls ++ L ∧
        (L.filter (fun c => c.level == Level.action)).map
          (fun c => c.payload.name) = phaseP3.actions.map ActionT.name ∧
        (∀ c ∈ L, c.level = Level.action → ∀ b m, c.outcome = .err b m →
          ("Failed to create action \"" ++ c.payload.name ++ "\": " ++
            Err.display ⟨b, m⟩) ∈
            (deployActions env429 optsPlain [] "t0" phaseP3.actions
              initSt).1.result.errors)) ∧
    (processAction envAllFail optsRB [] "t0" (ActionT.mk "A1" none [] none [])
      initSt).2 = some ⟨true, "429"⟩ ∧
    runC5.st.result.success = true ∧
    runC5.st.result.errors =
      ["Failed to create action \"A2\": Rate limit exceeded - too many requests"] ∧
    runC5.st.result.actions.map RemoteTask.name = ["A1", "A3"] ∧
    runC5.st.deleteCalls = [] := by
  refine ⟨rfl,
    C5_action_failure_handling.1 env429 optsPlain [] "t0" phaseP3.actions initSt rfl,
    C5_action_failure_handling.2 envAllFail optsRB [] "t0"
      (ActionT.mk "A1" none [] none []) initSt true "429" rfl rfl,
    rfl, rfl, rfl, rfl⟩

/-- C6: parent linkage of the created task tree.  The phase-level
creation call carries no `parent` and every action-level call made while
processing that phase carries the phase task's id; the action-level call
of `processAction` carries the enclosing phase task id and every
sub-level call it makes carries the created action task's id; the
sub-action loop only issues sub-level calls parented to the enclosing
action task. -/
theorem C6_parent_linkage :
    (∀ (env : Env) (opts : Options) (fm dcf : List (String × String))
        (ph : Phase) (st : St), ∃ c0 L,
      (processPhase env opts fm dcf ph st).1.createCalls =
        st.createCalls ++ c0 :: L ∧
      c0.level = Level.phase ∧ c0.payload.parent = none ∧
      (∀ c ∈ L, c.level = Level.action →
        ∃ pid, c0.outcome = .ok pid ∧ c.payload.parent = some pid)) ∧
    (∀ (env : Env) (opts : Options) (fm : List (String × String))
        (pid : String) (a : ActionT) (st : St), ∃ c0 L,
      (processAction env opts fm pid a st).1.createCalls =
        st.createCalls ++ c0 :: L ∧
      c0.level = Level.action ∧ c0.payload.parent = some pid ∧
      (∀ c ∈ L, c.level = Level.sub ∧
        ∃ aid, c0.outcome = .ok aid ∧ c.payload.parent = some aid)) ∧
    (∀ (env : Env) (opts : Options) (fm : List (String × String))
        (aid : String) (subs : List ActionT) (st : St), ∃ L,
      (deploySubActions env opts fm aid subs st).createCalls =
        st.createCalls ++ L ∧
      ∀ c ∈ L, c.level = Level.sub ∧ c.payload.parent = some aid) := by
  refine ⟨?_, ?_, ?_⟩
  · intro env opts fm dcf ph st
    obtain ⟨L, h1, h2⟩ := processPhase_spec env opts fm dcf ph st
    exact ⟨_, L, h1, rfl, rfl, fun c hc hlev => (h2 c hc).2 hlev⟩
  · intro env opts fm pid a st
    obtain ⟨L, E, h1, h2, _⟩ := processAction_spec env opts fm pid a st
    exact ⟨_, L, h1, rfl, rfl, h2⟩
  · intro env opts fm aid subs st
    obtain ⟨L, E, h1, h2, _⟩ := deploySubActions_spec env opts fm aid subs st
    exact ⟨L, h1, h2⟩

/-- C6 witness: the fully successful nested run creates exactly a phase
call with no parent, an action call parented to the phase task t0, and a
sub-action call parented to the action task t1; plus the processAction
statement at a concrete input. -/
theorem C6_witness :
    (∃ c0 L, (processAction envOk optsPlain [] "t0"
        (ActionT.mk "A" none [] none [ActionT.mk "S" none [] none []])
        initSt).1.createCalls = initSt.createCalls ++ c0 :: L ∧
      c0.level = Level.action ∧ c0.payload.parent = some "t0" ∧
      (∀ c ∈ L, c.level = Level.sub ∧
        ∃ aid, c0.outcome = .ok aid ∧ c.payload.parent = some aid)) ∧
    runNested.st.createCalls.map (fun c => (c.level, c.payload.parent)) =
      [(Level.phase, none), (Level.action, some "t0"), (Level.sub, some "t1")] ∧
    runNested.st.result.success = true := by
  refine ⟨C6_parent_linkage.2.1 envOk optsPlain [] "t0"
    (ActionT.mk "A" none [] none [ActionT.mk "S" none [] none []]) initSt,
    rfl, rfl⟩

end CU
